import Mathlib

/-!
Verification development for the Kubernetes service-discovery subsystem of
VictoriaMetrics (`lib/promscrape/discovery/kubernetes`): a shallow embedding of
`endpoints.go` (the Endpoints × Pod × Service label join) and of the watch
orchestration file (`startWatcherByRole`, `startWatchForResource`,
`readJSONObject`, `processEndpoints` plumbing), together with theorems about
the embedded operations.

Conventions of the embedding:
* Go maps used as label sets (`map[string]string`) are association lists with
  a store operation that overwrites in place (`alStore`); lookup returns the
  first hit, and maps built from `[]` therefore have unique keys, so list
  equality of two such maps coincides with Go's extensional map equality when
  both are built by the same sequence of stores.
* Go `sync.Map` caches are association lists keyed by `namespace/name`.
* Channel sends are collected into result lists, in send order.
* Go `range` over the `podPortsSeen` map has an unspecified iteration order;
  it is modelled by an explicit order parameter `iter` (any permutation of the
  insertion-ordered association list), with `id` as the canonical instance.
* Durations are in whole seconds (`time.Second = 1`).
Helper functions of the repository that are not part of the provided sources
(`Pod`/`Service` label appenders, `registerLabelsAndAnnotations`,
`JoinHostPort`, the cache-update helpers, the EndpointSlice side, the framed
JSON reader) are modelled from the specification; each such definition carries
a doc comment starting with `Modelled from the spec:`.
-/

/-- Association-list lookup keyed by strings: first entry wins. Models both
`sync.Map.Load` on the shared caches and reads of a Go label map. -/
def alLookup {α : Type} : List (String × α) → String → Option α
  | [], _ => none
  | (k', v) :: rest, k => if k' = k then some v else alLookup rest k

/-- Association-list store: overwrite the existing entry for the key in place,
or append a new entry. Models a Go map assignment `m[k] = v` (and
`sync.Map.Store`). -/
def alStore {α : Type} : List (String × α) → String → α → List (String × α)
  | [], k, v => [(k, v)]
  | (k', v') :: rest, k, v =>
    if k' = k then (k, v) :: rest else (k', v') :: alStore rest k v

/-- Association-list delete: models `sync.Map.Delete`. -/
def alDelete {α : Type} (l : List (String × α)) (k : String) : List (String × α) :=
  l.filter (fun kv => !(kv.1 == k))

/-- A Go `map[string]string` of target labels, as an insertion-ordered
association list with unique keys. -/
abbrev LabelMap := List (String × String)

/-- A batch of label pairs written by one overlay (one Go `append...Labels`
helper), in the order the Go code stores them. -/
abbrev LabelPairs := List (String × String)

/-- Apply one overlay to a label map: store every pair in order, later stores
overwriting earlier ones. -/
def applyPairs (m : LabelMap) (ps : LabelPairs) : LabelMap :=
  ps.foldl (fun acc kv => alStore acc kv.1 kv.2) m

/-- Shared caches of a `sync.Map` each; a generic cache keyed by
`namespace/name`. -/
abbrev Cache (α : Type) := List (String × α)

/-- ObjectMeta of a k8s object (namespace, name, uid, labels, annotations);
only the fields the label builders read are kept. -/
structure ObjectMeta where
  ns : String
  name : String
  uid : String
  labels : List (String × String)
  annotations : List (String × String)
  deriving DecidableEq, Repr

/-- ObjectReference from `endpoints.go`: Kind, Name, Namespace. -/
structure ObjectReference where
  kind : String
  name : String
  ns : String
  deriving DecidableEq, Repr

/-- The cache key of an ObjectReference: `Namespace + "/" + Name`. -/
def ObjectReference.key (o : ObjectReference) : String :=
  o.ns ++ "/" ++ o.name

/-- EndpointAddress from `endpoints.go`: Hostname, IP, NodeName, TargetRef. -/
structure EndpointAddress where
  hostname : String
  ip : String
  nodeName : String
  targetRef : ObjectReference
  deriving DecidableEq, Repr

/-- EndpointPort from `endpoints.go`: AppProtocol, Name, Port, Protocol. -/
structure EndpointPort where
  appProtocol : String
  name : String
  port : Int
  protocol : String
  deriving DecidableEq, Repr

/-- EndpointSubset from `endpoints.go`: Addresses, NotReadyAddresses, Ports. -/
structure EndpointSubset where
  addresses : List EndpointAddress
  notReadyAddresses : List EndpointAddress
  ports : List EndpointPort
  deriving DecidableEq, Repr

/-- Endpoints object from `endpoints.go`: Metadata and Subsets. -/
structure Endpoints where
  metadata : ObjectMeta
  subsets : List EndpointSubset
  deriving DecidableEq, Repr

/-- `Endpoints.key()`: `Metadata.Namespace + "/" + Metadata.Name`. -/
def Endpoints.key (e : Endpoints) : String :=
  e.metadata.ns ++ "/" ++ e.metadata.name

/-- Modelled from the spec: a container port record
`{name, port, protocol}` of a Pod container (§3 data-model table). -/
structure ContainerPort where
  name : String
  containerPort : Int
  protocol : String
  deriving DecidableEq, Repr

/-- Modelled from the spec: a Pod container `{name, image, ports}` (§3). -/
structure PodContainer where
  name : String
  image : String
  ports : List ContainerPort
  deriving DecidableEq, Repr

/-- Modelled from the spec: the Pod record with the attributes the label
builders read (§3: pod IP, node name, host IP, phase, labels, annotations,
containers; plus the ready flag of §4.4). Owner references are omitted: no
claim depends on them. -/
structure Pod where
  metadata : ObjectMeta
  nodeName : String
  containers : List PodContainer
  podIP : String
  hostIP : String
  phase : String
  ready : String
  deriving DecidableEq, Repr

/-- The cache key of a Pod: `namespace/name`. -/
def Pod.key (p : Pod) : String :=
  p.metadata.ns ++ "/" ++ p.metadata.name

/-- Modelled from the spec: the Service record with the attributes its common
labels read (§3: type, cluster IP, external name, labels, annotations). -/
structure Service where
  metadata : ObjectMeta
  serviceType : String
  clusterIP : String
  externalName : String
  deriving DecidableEq, Repr

/-- The cache key of a Service: `namespace/name`. -/
def Service.key (s : Service) : String :=
  s.metadata.ns ++ "/" ++ s.metadata.name

/-- Modelled from the spec: `discoveryutils.JoinHostPort` as used for
`__address__`: `host:port` (§3: "a Pod's `__address__` target uses
`podIP:containerPort`; an endpoint target uses
`endpointAddressIP:endpointPort`"). -/
def joinHostPort (host : String) (port : Int) : String :=
  host ++ ":" ++ toString port

/-- Modelled from the spec: Kubernetes label-key normalization, "non-alphanumeric
replaced with `_`" (§4.4). -/
def sanitizeLabelName (s : String) : String :=
  s.map (fun c => if c.isAlphanum then c else '_')

/-- Modelled from the spec: `ObjectMeta.registerLabelsAndAnnotations(prefix, m)`
as the list of pairs it stores: labels as `<prefix>_label_<k>` /
`<prefix>_labelpresent_<k>` and annotations likewise (§4.4). -/
def metaLabelPairs (pfx : String) (om : ObjectMeta) : LabelPairs :=
  om.labels.flatMap (fun kv =>
    [(pfx ++ "_label_" ++ sanitizeLabelName kv.1, kv.2),
     (pfx ++ "_labelpresent_" ++ sanitizeLabelName kv.1, "true")]) ++
  om.annotations.flatMap (fun kv =>
    [(pfx ++ "_annotation_" ++ sanitizeLabelName kv.1, kv.2),
     (pfx ++ "_annotationpresent_" ++ sanitizeLabelName kv.1, "true")])

/-- Modelled from the spec: the pairs `Pod.appendCommonLabels` stores (§4.4:
pod name, node name, host IP, pod IP, phase, ready flag, uid, then the pod's
labels/annotations under `__meta_kubernetes_pod_*`). -/
def podCommonPairs (p : Pod) : LabelPairs :=
  [("__meta_kubernetes_pod_name", p.metadata.name),
   ("__meta_kubernetes_pod_node_name", p.nodeName),
   ("__meta_kubernetes_pod_host_ip", p.hostIP),
   ("__meta_kubernetes_pod_ip", p.podIP),
   ("__meta_kubernetes_pod_phase", p.phase),
   ("__meta_kubernetes_pod_ready", p.ready),
   ("__meta_kubernetes_pod_uid", p.metadata.uid)] ++
  metaLabelPairs "__meta_kubernetes_pod" p.metadata

/-- Modelled from the spec: the pairs `Pod.appendContainerLabels` stores
(§4.4: container name, image, port name, port number, port protocol). -/
def containerPairs (c : PodContainer) (cp : ContainerPort) : LabelPairs :=
  [("__meta_kubernetes_pod_container_name", c.name),
   ("__meta_kubernetes_pod_container_image", c.image),
   ("__meta_kubernetes_pod_container_port_name", cp.name),
   ("__meta_kubernetes_pod_container_port_number", toString cp.containerPort),
   ("__meta_kubernetes_pod_container_port_protocol", cp.protocol)]

/-- Modelled from the spec: the pairs `Service.appendCommonLabels` stores
(§4.4: service name, cluster IP, type, external name when present, then the
service's labels/annotations under `__meta_kubernetes_service_*`). -/
def svcCommonPairs (s : Service) : LabelPairs :=
  [("__meta_kubernetes_service_name", s.metadata.name),
   ("__meta_kubernetes_service_type", s.serviceType),
   ("__meta_kubernetes_service_cluster_ip", s.clusterIP)] ++
  (if s.externalName ≠ "" then
     [("__meta_kubernetes_service_external_name", s.externalName)] else []) ++
  metaLabelPairs "__meta_kubernetes_service" s.metadata

/-- The pairs stored by `getEndpointLabels` (`endpoints.go` lines 167-189):
the six-key literal map, then the conditional target-ref, node-name and
hostname keys, in source order. -/
def endpointSkeletonPairs (om : ObjectMeta) (ea : EndpointAddress)
    (epp : EndpointPort) (ready : String) : LabelPairs :=
  [("__address__", joinHostPort ea.ip epp.port),
   ("__meta_kubernetes_namespace", om.ns),
   ("__meta_kubernetes_endpoints_name", om.name),
   ("__meta_kubernetes_endpoint_ready", ready),
   ("__meta_kubernetes_endpoint_port_name", epp.name),
   ("__meta_kubernetes_endpoint_port_protocol", epp.protocol)] ++
  (if ea.targetRef.kind ≠ "" then
     [("__meta_kubernetes_endpoint_address_target_kind", ea.targetRef.kind),
      ("__meta_kubernetes_endpoint_address_target_name", ea.targetRef.name)]
   else []) ++
  (if ea.nodeName ≠ "" then
     [("__meta_kubernetes_endpoint_node_name", ea.nodeName)] else []) ++
  (if ea.hostname ≠ "" then
     [("__meta_kubernetes_endpoint_hostname", ea.hostname)] else [])

/-- `getEndpointLabels` (`endpoints.go` lines 167-189) as a label map. -/
def getEndpointLabels (om : ObjectMeta) (ea : EndpointAddress)
    (epp : EndpointPort) (ready : String) : LabelMap :=
  applyPairs [] (endpointSkeletonPairs om ea epp ready)

/-- The overlays applied by `getEndpointLabelsForAddressAndPort`
(`endpoints.go` lines 146-150) before the pod-specific part, in the order the
source applies them: the skeleton of `getEndpointLabels`, then — when the
service is present — `svc.appendCommonLabels`, then
`eps.Metadata.registerLabelsAndAnnotations("__meta_kubernetes_endpoints", m)`. -/
def endpointOverlaySeq (eps : Endpoints) (ea : EndpointAddress)
    (epp : EndpointPort) (svc : Option Service) (ready : String) :
    List LabelPairs :=
  [endpointSkeletonPairs eps.metadata ea epp ready] ++
  (match svc with
   | some s => [svcCommonPairs s]
   | none => []) ++
  [metaLabelPairs "__meta_kubernetes_endpoints" eps.metadata]

/-- The label map after the three overlays of `endpoints.go` lines 146-150. -/
def endpointBaseLabels (eps : Endpoints) (ea : EndpointAddress)
    (epp : EndpointPort) (svc : Option Service) (ready : String) : LabelMap :=
  (endpointOverlaySeq eps ea epp svc ready).foldl applyPairs []

/-- The `podPortsSeen` map of `appendTargetLabels`: keyed by the pod's cache
key (pointer identity of `*Pod` values loaded from the cache coincides with
the lookup key), holding the pod and the recorded container ports, in
insertion order. -/
abbrev PodPortsSeen := List (String × Pod × List Int)

/-- `podPortsSeen[p] = append(podPortsSeen[p], port)` (`endpoints.go` line
159): extend the entry in place, or append a new entry. -/
def seenRecord : PodPortsSeen → String → Pod → Int → PodPortsSeen
  | [], k, p, port => [(k, p, [port])]
  | (k', p', ports') :: rest, k, p, port =>
    if k' = k then (k', p', ports' ++ [port]) :: rest
    else (k', p', ports') :: seenRecord rest k p port

/-- The container loop of `getEndpointLabelsForAddressAndPort` (`endpoints.go`
lines 155-163): for each container, the first port equal to `epp.Port` gets
container labels appended and is recorded in `podPortsSeen` (the `break`
leaves only the inner loop). -/
def podContainersScan : List PodContainer → String → Pod → EndpointPort →
    LabelMap → PodPortsSeen → LabelMap × PodPortsSeen
  | [], _, _, _, m, seen => (m, seen)
  | c :: cs, k, p, epp, m, seen =>
    match c.ports.find? (fun cp => cp.containerPort == epp.port) with
    | some cp =>
      podContainersScan cs k p epp (applyPairs m (containerPairs c cp))
        (seenRecord seen k p cp.containerPort)
    | none => podContainersScan cs k p epp m seen

/-- `getEndpointLabelsForAddressAndPort` (`endpoints.go` lines 145-165). -/
def getEndpointLabelsForAddressAndPort (seen : PodPortsSeen) (eps : Endpoints)
    (ea : EndpointAddress) (epp : EndpointPort) (pOpt : Option Pod)
    (svc : Option Service) (ready : String) : LabelMap × PodPortsSeen :=
  let m := endpointBaseLabels eps ea epp svc ready
  match pOpt with
  | none => (m, seen)
  | some p =>
    if ea.targetRef.kind ≠ "Pod" then (m, seen)
    else
      podContainersScan p.containers ea.targetRef.key p epp
        (applyPairs m (podCommonPairs p)) seen

/-- `appendEndpointLabelsForAddresses` (`endpoints.go` lines 131-143): one
label map appended per address, the pod looked up in the pod cache by
`ea.TargetRef.key()`. -/
def appendEndpointLabelsForAddresses (ms : List LabelMap) (seen : PodPortsSeen)
    (eps : Endpoints) (eas : List EndpointAddress) (epp : EndpointPort)
    (pods : Cache Pod) (svc : Option Service) (ready : String) :
    List LabelMap × PodPortsSeen :=
  match eas with
  | [] => (ms, seen)
  | ea :: rest =>
    let r := getEndpointLabelsForAddressAndPort seen eps ea epp
      (alLookup pods ea.targetRef.key) svc ready
    appendEndpointLabelsForAddresses (ms ++ [r.1]) r.2 eps rest epp pods svc ready

/-- The port loop of pass 1 (`endpoints.go` lines 94-97): for each subset
port, ready addresses with `"true"` then not-ready addresses with
`"false"`. -/
def endpointsSubsetLoop (eps : Endpoints) (pods : Cache Pod)
    (svc : Option Service) (ss : EndpointSubset) :
    List EndpointPort → List LabelMap → PodPortsSeen →
    List LabelMap × PodPortsSeen
  | [], ms, seen => (ms, seen)
  | epp :: rest, ms, seen =>
    let r1 := appendEndpointLabelsForAddresses ms seen eps ss.addresses epp
      pods svc "true"
    let r2 := appendEndpointLabelsForAddresses r1.1 r1.2 eps
      ss.notReadyAddresses epp pods svc "false"
    endpointsSubsetLoop eps pods svc ss rest r2.1 r2.2

/-- Pass 1 of `appendTargetLabels` (`endpoints.go` lines 92-98): the subset
loop. -/
def endpointsPass1 (eps : Endpoints) (pods : Cache Pod) (svc : Option Service) :
    List EndpointSubset → List LabelMap → PodPortsSeen →
    List LabelMap × PodPortsSeen
  | [], ms, seen => (ms, seen)
  | ss :: rest, ms, seen =>
    let r := endpointsSubsetLoop eps pods svc ss ss.ports ms seen
    endpointsPass1 eps pods svc rest r.1 r.2

/-- The `portSeen` helper of `appendTargetLabels` (`endpoints.go` lines
101-108). -/
def portSeen (port : Int) : List Int → Bool
  | [] => false
  | q :: rest => if q = port then true else portSeen port rest

/-- One pass-2 label map (`endpoints.go` lines 115-123): the `__address__`
literal, pod common labels, container labels, then service common labels when
the service is present. -/
def pass2MapForPort (svc : Option Service) (p : Pod) (c : PodContainer)
    (cp : ContainerPort) : LabelMap :=
  let m := applyPairs [] [("__address__", joinHostPort p.podIP cp.containerPort)]
  let m := applyPairs m (podCommonPairs p)
  let m := applyPairs m (containerPairs c cp)
  match svc with
  | some s => applyPairs m (svcCommonPairs s)
  | none => m

/-- Pass-2 targets of one container: one map per container port not recorded
in pass 1 (`endpoints.go` lines 111-125). -/
def pass2ContainerTargets (svc : Option Service) (p : Pod) (ports : List Int)
    (c : PodContainer) : List LabelMap :=
  c.ports.filterMap (fun cp =>
    if portSeen cp.containerPort ports then none
    else some (pass2MapForPort svc p c cp))

/-- Pass-2 targets of one `podPortsSeen` entry (`endpoints.go` lines
110-126). -/
def pass2EntryTargets (svc : Option Service) (e : String × Pod × List Int) :
    List LabelMap :=
  e.2.1.containers.flatMap (pass2ContainerTargets svc e.2.1 e.2.2)

/-- Pass 2 of `appendTargetLabels` (`endpoints.go` lines 109-127): append the
skipped-port targets of every `podPortsSeen` entry. -/
def endpointsPass2 (svc : Option Service) : PodPortsSeen → List LabelMap →
    List LabelMap
  | [], ms => ms
  | e :: rest, ms => endpointsPass2 svc rest (ms ++ pass2EntryTargets svc e)

/-- `Endpoints.appendTargetLabels` (`endpoints.go` lines 87-129), with the
iteration order of the Go `range` over `podPortsSeen` (unspecified by Go)
supplied as `iter`, a reordering of the insertion-ordered entries. -/
def appendTargetLabelsIter (iter : PodPortsSeen → PodPortsSeen)
    (eps : Endpoints) (ms : List LabelMap) (pods : Cache Pod)
    (svcs : Cache Service) : List LabelMap :=
  let svc := alLookup svcs eps.key
  let r := endpointsPass1 eps pods svc eps.subsets ms []
  endpointsPass2 svc (iter r.2) r.1

/-- `Endpoints.appendTargetLabels` with the canonical (insertion-order)
iteration over `podPortsSeen`. -/
def appendTargetLabels (eps : Endpoints) (ms : List LabelMap)
    (pods : Cache Pod) (svcs : Cache Service) : List LabelMap :=
  appendTargetLabelsIter id eps ms pods svcs

/-- SyncEvent (watch file lines 23-32): Key, Labels (`[]` models a nil Go
slice — `appendTargetLabels(nil, …)` with no appends returns nil), and
ConfigSectionSet. -/
structure SyncEvent where
  key : String
  labels : List LabelMap
  configSectionSet : String
  deriving DecidableEq, Repr

/-- Modelled from the spec: the EndpointSlice endpoint record (§3: addresses,
conditions.ready, targetRef). -/
structure SliceEndpoint where
  addresses : List String
  ready : Bool
  targetRef : ObjectReference
  deriving DecidableEq, Repr

/-- Modelled from the spec: the EndpointSlice record (§3: addressType,
endpoints, ports). -/
structure EndpointSlice where
  metadata : ObjectMeta
  addressType : String
  endpoints : List SliceEndpoint
  ports : List EndpointPort
  deriving DecidableEq, Repr

/-- The cache key of an EndpointSlice: `namespace/name`. -/
def EndpointSlice.key (e : EndpointSlice) : String :=
  e.metadata.ns ++ "/" ++ e.metadata.name

/-- SharedKubernetesCache: the four concurrent key-to-object maps (§4.3,
§2 item 4). -/
structure SharedKubernetesCache where
  pods : Cache Pod
  services : Cache Service
  endpoints : Cache Endpoints
  endpointsSlices : Cache EndpointSlice
  deriving DecidableEq, Repr

/-- The empty shared cache (`NewSharedKubernetesCache`). -/
def emptySharedCache : SharedKubernetesCache :=
  { pods := [], services := [], endpoints := [], endpointsSlices := [] }

/-- `buildSyncKey` (watch file lines 57-59). -/
def buildSyncKey (objType setName objKey : String) : String :=
  objType ++ "/" ++ setName ++ "/" ++ objKey

/-- Modelled from the spec: `updatePodCache` with the §4.3 update semantics:
`ADDED`/`MODIFIED` store, `DELETED` delete, others no-op. -/
def updatePodCache (c : Cache Pod) (p : Pod) (action : String) : Cache Pod :=
  if action = "ADDED" ∨ action = "MODIFIED" then alStore c p.key p
  else if action = "DELETED" then alDelete c p.key
  else c

/-- Modelled from the spec: `updateServiceCache`, §4.3 semantics. -/
def updateServiceCache (c : Cache Service) (s : Service) (action : String) :
    Cache Service :=
  if action = "ADDED" ∨ action = "MODIFIED" then alStore c s.key s
  else if action = "DELETED" then alDelete c s.key
  else c

/-- Modelled from the spec: `updateEndpointsCache`, §4.3 semantics. -/
def updateEndpointsCache (c : Cache Endpoints) (e : Endpoints)
    (action : String) : Cache Endpoints :=
  if action = "ADDED" ∨ action = "MODIFIED" then alStore c e.key e
  else if action = "DELETED" then alDelete c e.key
  else c

/-- Modelled from the spec: `updateEndpointsSliceCache`, §4.3 semantics. -/
def updateEndpointsSliceCache (c : Cache EndpointSlice) (e : EndpointSlice)
    (action : String) : Cache EndpointSlice :=
  if action = "ADDED" ∨ action = "MODIFIED" then alStore c e.key e
  else if action = "DELETED" then alDelete c e.key
  else c

/-- `processEndpoints` (`endpoints.go` lines 191-210) with the pass-2
iteration order made explicit; the channel sends become the returned list.
`ERROR` and unknown actions send nothing (the default branch only logs). -/
def processEndpointsIter (iter : PodPortsSeen → PodPortsSeen) (setName : String)
    (sc : SharedKubernetesCache) (p : Endpoints) (action : String) :
    List SyncEvent :=
  let key := buildSyncKey "endpoints" setName p.key
  if action = "ADDED" ∨ action = "MODIFIED" then
    [{ key := key,
       labels := appendTargetLabelsIter iter p [] sc.pods sc.services,
       configSectionSet := setName }]
  else if action = "DELETED" then
    [{ key := key, labels := [], configSectionSet := setName }]
  else []

/-- `processEndpoints` with the canonical pass-2 order. -/
def processEndpoints (setName : String) (sc : SharedKubernetesCache)
    (p : Endpoints) (action : String) : List SyncEvent :=
  processEndpointsIter id setName sc p action

/-- The pod watch handler installed by `startWatcherByRole` for role
`endpoints` (watch file lines 101-113): update the pod cache, then on
`MODIFIED` look up the Endpoints cache by the pod's key and, when found,
re-run `processEndpoints`. Returns the updated caches and the emitted
events. -/
def endpointsRolePodWatchHandler (setName : String)
    (sc : SharedKubernetesCache) (p : Pod) (action : String) :
    SharedKubernetesCache × List SyncEvent :=
  let sc' := { sc with pods := updatePodCache sc.pods p action }
  if action = "MODIFIED" then
    match alLookup sc'.endpoints p.key with
    | some ep => (sc', processEndpoints setName sc' ep "MODIFIED")
    | none => (sc', [])
  else (sc', [])

/-- Modelled from the spec: the EndpointSlice label builder
(`EndpointSlice.appendTargetLabels(ms, sc.Pods, sc.Services)`, §4.4:
"structurally analogous to Endpoints but sources ports and addresses from the
slice's own fields and honors `conditions.ready`"); one target per
(port × endpoint-address), joined with the same-keyed Service and the
targetRef pod when cached. -/
def sliceTargetLabels (eps : EndpointSlice) (ms : List LabelMap)
    (pods : Cache Pod) (svcs : Cache Service) : List LabelMap :=
  let svc := alLookup svcs eps.key
  eps.ports.foldl (fun ms epp =>
    eps.endpoints.foldl (fun ms se =>
      se.addresses.foldl (fun ms addr =>
        let m := applyPairs []
          [("__address__", joinHostPort addr epp.port),
           ("__meta_kubernetes_namespace", eps.metadata.ns),
           ("__meta_kubernetes_endpointslice_name", eps.metadata.name),
           ("__meta_kubernetes_endpointslice_endpoint_conditions_ready",
            if se.ready then "true" else "false")]
        let m := match svc with
          | some s => applyPairs m (svcCommonPairs s)
          | none => m
        let m := match alLookup pods se.targetRef.key with
          | some p =>
            if se.targetRef.kind = "Pod" then applyPairs m (podCommonPairs p)
            else m
          | none => m
        ms ++ [m]) ms) ms) ms

/-- Modelled from the spec: `processEndpointSlices`, the §4.5 event dispatch
for the endpointslices kind (build labels against the shared caches on
`ADDED`/`MODIFIED`, nil labels on `DELETED`, nothing otherwise). -/
def processEndpointSlices (setName : String) (sc : SharedKubernetesCache)
    (p : EndpointSlice) (action : String) : List SyncEvent :=
  let key := buildSyncKey "endpointslices" setName p.key
  if action = "ADDED" ∨ action = "MODIFIED" then
    [{ key := key, labels := sliceTargetLabels p [] sc.pods sc.services,
       configSectionSet := setName }]
  else if action = "DELETED" then
    [{ key := key, labels := [], configSectionSet := setName }]
  else []

/-- The endpointslices watch handler (watch file lines 249-255):
`processEndpointSlices` then `updateEndpointsSliceCache`. -/
def endpointSlicesWatchHandler (setName : String) (sc : SharedKubernetesCache)
    (eps : EndpointSlice) (action : String) :
    SharedKubernetesCache × List SyncEvent :=
  let evs := processEndpointSlices setName sc eps action
  ({ sc with endpointsSlices := updateEndpointsSliceCache sc.endpointsSlices eps action },
   evs)

/-- The bootstrap (`getSync`) closure of the endpointslices watcher (watch
file lines 256-266): for each listed slice, accumulate its target labels
against the shared pod and service caches and synthesize an `ADDED` event —
the source performs no `updateEndpointsSliceCache` call here, so the caches
are returned unchanged. -/
def endpointSlicesBootstrap (setName : String) (sc : SharedKubernetesCache) :
    List EndpointSlice → List LabelMap →
    SharedKubernetesCache × List SyncEvent × List LabelMap
  | [], ms => (sc, [], ms)
  | eps :: rest, ms =>
    let ms' := sliceTargetLabels eps ms sc.pods sc.services
    let evs := processEndpointSlices setName sc eps "ADDED"
    let r := endpointSlicesBootstrap setName sc rest ms'
    (r.1, evs ++ r.2.1, r.2.2)

/-- The bootstrap (`getSync`) closure of the endpoints watcher of role
`endpoints` (watch file lines 154-165): for each listed Endpoints, accumulate
`appendTargetLabels`, synthesize an `ADDED` event, then update the Endpoints
cache. -/
def endpointsKindBootstrap (setName : String) (sc : SharedKubernetesCache) :
    List Endpoints → List LabelMap →
    SharedKubernetesCache × List SyncEvent × List LabelMap
  | [], ms => (sc, [], ms)
  | ep :: rest, ms =>
    let ms' := appendTargetLabels ep ms sc.pods sc.services
    let evs := processEndpoints setName sc ep "ADDED"
    let sc' := { sc with endpoints := updateEndpointsCache sc.endpoints ep "ADDED" }
    let r := endpointsKindBootstrap setName sc' rest ms'
    (r.1, evs ++ r.2.1, r.2.2)

/-- The bootstrap closure of the pods watcher of role `endpoints` (watch file
lines 114-123): every listed pod is folded into the pod cache with `ADDED`. -/
def buildPodCacheFrom (c : Cache Pod) (items : List Pod) : Cache Pod :=
  items.foldl (fun c p => updatePodCache c p "ADDED") c

/-- The bootstrap closure of the services watcher of role `endpoints` (watch
file lines 137-146). -/
def buildServiceCacheFrom (c : Cache Service) (items : List Service) :
    Cache Service :=
  items.foldl (fun c s => updateServiceCache c s "ADDED") c

/-- The sequential bootstrap of role `endpoints` (`startWatcherByRole`, watch
file lines 100-165): `startWatchForObject` is called for pods, then services,
then endpoints, and each call runs its blocking list plus `getSync` before
returning (the watch goroutine is spawned afterwards), so the pod and service
caches are fully folded before the first Endpoints item is processed. -/
def runEndpointsRoleBootstrap (setName : String) (podsList : List Pod)
    (svcsList : List Service) (epsList : List Endpoints) :
    SharedKubernetesCache × List SyncEvent × List LabelMap :=
  let sc := emptySharedCache
  let sc := { sc with pods := buildPodCacheFrom sc.pods podsList }
  let sc := { sc with services := buildServiceCacheFrom sc.services svcsList }
  endpointsKindBootstrap setName sc epsList []

/-- The sequential bootstrap of role `endpointslices` (`startWatcherByRole`,
watch file lines 202-266): `startWatchForObject` is called for pods, then
services, then endpointslices, each running its blocking list plus `getSync`
synchronously before spawning its watch goroutine, so the pod and service
caches are fully folded before the first EndpointSlice item is processed. -/
def runEndpointSlicesRoleBootstrap (setName : String) (podsList : List Pod)
    (svcsList : List Service) (slList : List EndpointSlice) :
    SharedKubernetesCache × List SyncEvent × List LabelMap :=
  let sc := emptySharedCache
  let sc := { sc with pods := buildPodCacheFrom sc.pods podsList }
  let sc := { sc with services := buildServiceCacheFrom sc.services svcsList }
  endpointSlicesBootstrap setName sc slList []

/-- Events of the bootstrap trace of one role: the blocking list request, the
synchronous `getSync` fold, and the watch-goroutine spawn, tagged with the
object kind and the namespace (`""` for cluster scope). -/
inductive BootEv where
  | fetch (kind ns : String)
  | fold (kind ns : String)
  | spawn (kind ns : String)
  deriving DecidableEq, Repr

/-- The operation trace of one `startWatchForObject` call (watch file lines
273-321): per namespace (or once, cluster-scoped) a blocking list GET, the
synchronous `getSync`, then the goroutine spawn. -/
def watchObjectTrace (kind : String) (nss : List String) : List BootEv :=
  match nss with
  | [] => [BootEv.fetch kind "", BootEv.fold kind "", BootEv.spawn kind ""]
  | _ =>
    nss.flatMap (fun ns => [BootEv.fetch kind ns, BootEv.fold kind ns, BootEv.spawn kind ns])

/-- The operation trace of `startWatcherByRole` for role `endpoints` (watch
file lines 100-165): the three `startWatchForObject` calls run to completion
in order — pods, then services, then endpoints. -/
def endpointsRoleTrace (nss : List String) : List BootEv :=
  watchObjectTrace "pods" nss ++ watchObjectTrace "services" nss ++
    watchObjectTrace "endpoints" nss

/-- The operation trace of `startWatcherByRole` for role `endpointslices`
(watch file lines 202-266): the three `startWatchForObject` calls run to
completion in order — pods, then services, then endpointslices. -/
def endpointSlicesRoleTrace (nss : List String) : List BootEv :=
  watchObjectTrace "pods" nss ++ watchObjectTrace "services" nss ++
    watchObjectTrace "endpointslices" nss

/-- The backoff state of `startWatchForResource` (watch file lines 330-350)
after `n` failed `getStreamAPIResponse` calls, in seconds: it starts at 1 and,
while still below 30, grows by 5 before each sleep. -/
def startWatchBackoffs : Nat → Nat
  | 0 => 1
  | n + 1 =>
    let b := startWatchBackoffs n
    if b < 30 then b + 5 else b

/-- The duration of the `n`-th sleep (0-based) of `startWatchForResource`
under continuous failure: the increment at lines 345-347 runs before the
`time.Sleep(backoff)` at line 348, so the `n`-th sleep uses the state after
`n + 1` increments. -/
def startWatchSleep (n : Nat) : Nat :=
  startWatchBackoffs (n + 1)

/-- Rendition of claim C3's asserted sleep sequence, following its words:
"1, 6, 11, 16, 21, 26, 30, 30, ... seconds". -/
def claimC3SleepSeq (n : Nat) : Nat :=
  if n < 6 then 1 + 5 * n else 30

/-- The result of one `readJSONObject` call (watch file lines 421-441) fed by
the framed JSON reader on a frame of `frame` bytes, with buffer capacity
`cap` and `acc` bytes already read. Modelled from the spec for the reader
side (§4.2): a read into the free part of the buffer returns the whole
remaining frame when it fits (`err == nil`, then the loop breaks), else fills
the free part completely and signals short buffer, upon which the source
doubles the buffer (`bytesutil.Resize(b, len(b)*2)`), advances `offset`, and
continues; a zero-byte short-buffer read returns the
`"got short buffer with n=0"` error. -/
def readJSONObjectLoop (frame : List Char) (cap : Nat) (acc : List Char) :
    Except String (List Char) :=
  let avail := cap - acc.length
  if frame.length ≤ avail then Except.ok (acc ++ frame)
  else if h : avail = 0 then Except.error "got short buffer with n=0"
  else readJSONObjectLoop (frame.drop avail) (cap * 2) (acc ++ frame.take avail)
termination_by frame.length
decreasing_by
  simp only [List.length_drop]
  omega

/-- `readJSONObject` as called from `getStreamAPIResponse` (watch file lines
406-407): a fresh 1024-byte buffer per frame. -/
def readJSONObject (frame : List Char) : Except String (List Char) :=
  readJSONObjectLoop frame 1024 []

/-- Number of pass-1 targets contributed by one subset: one per
(port × address), ready and not-ready alike. -/
def subsetPass1Count (ss : EndpointSubset) : Nat :=
  ss.ports.length * (ss.addresses.length + ss.notReadyAddresses.length)

/-- Number of pass-1 targets of an Endpoints object. -/
def pass1Count (eps : Endpoints) : Nat :=
  (eps.subsets.map subsetPass1Count).sum

/-- The `podPortsSeen` map produced by pass 1 (it does not depend on the
service or on the accumulated label maps; see `endpointsPass1_snd`). -/
def seenOf (eps : Endpoints) (pods : Cache Pod) : PodPortsSeen :=
  (endpointsPass1 eps pods none eps.subsets [] []).2

/-- Number of pass-2 targets of one `podPortsSeen` entry: its pod's container
ports not recorded for it in pass 1, counted per container. -/
def entryUncoveredCount (e : String × Pod × List Int) : Nat :=
  (e.2.1.containers.map (fun c =>
    (c.ports.filter (fun cp => !portSeen cp.containerPort e.2.2)).length)).sum

/-- Number of pass-2 targets of an Endpoints object. -/
def pass2Count (eps : Endpoints) (pods : Cache Pod) : Nat :=
  ((seenOf eps pods).map entryUncoveredCount).sum

/-- The distinct `targetRef` keys of kind `Pod` referenced by any subset
address of an Endpoints object. -/
def referencedPodRefKeys (eps : Endpoints) : List String :=
  (eps.subsets.flatMap (fun ss =>
    (ss.addresses ++ ss.notReadyAddresses).filterMap (fun ea =>
      if ea.targetRef.kind = "Pod" then some ea.targetRef.key else none))).dedup

/-- The ports recorded for a referenced pod key in pass 1 (empty when the pod
never entered `podPortsSeen`). -/
def recordedPortsFor (eps : Endpoints) (pods : Cache Pod) (k : String) :
    List Int :=
  match alLookup (seenOf eps pods) k with
  | some pr => pr.2
  | none => []

/-- Rendition of claim C1's predicted total target count, following its
words: one target per (subset-port × address) in pass 1, plus — for every pod
referenced via an address targetRef of kind `Pod` and present in the pod
cache — one additional target per container port not covered by any subset
port recorded for it in pass 1. -/
def claimC1PredictedCount (eps : Endpoints) (pods : Cache Pod) : Nat :=
  pass1Count eps +
  ((referencedPodRefKeys eps).filterMap (fun k =>
    (alLookup pods k).map (fun p =>
      (p.containers.map (fun c =>
        (c.ports.filter (fun cp =>
          !portSeen cp.containerPort (recordedPortsFor eps pods k))).length)).sum))).sum

/-- The last value written for a key by a sequence of pair stores (later
pairs win). -/
def lastVal (ps : LabelPairs) (k : String) : Option String :=
  (ps.reverse.find? (fun kv => kv.1 == k)).map (fun kv => kv.2)

/-- The key does not carry the service-label name space
`__meta_kubernetes_service_` (character-level, so it also rules out the
dynamic service label/annotation keys). -/
abbrev noSvcPfx (k : String) : Prop :=
  ¬ List.IsPrefix ("__meta_kubernetes_service_".data) k.data

/-- The label maps accumulated by the endpoints bootstrap when the pod and
service caches are held fixed; used to state that the sequential bootstrap of
role `endpoints` joins every listed Endpoints against the fully folded
caches. -/
def endpointsListLabels (pods : Cache Pod) (svcs : Cache Service) :
    List Endpoints → List LabelMap → List LabelMap
  | [], ms => ms
  | ep :: rest, ms => endpointsListLabels pods svcs rest (appendTargetLabels ep ms pods svcs)

/-- The label maps accumulated by the endpointslices bootstrap when the pod
and service caches are held fixed; the endpointslices analog of
`endpointsListLabels`. -/
def slicesListLabels (pods : Cache Pod) (svcs : Cache Service) :
    List EndpointSlice → List LabelMap → List LabelMap
  | [], ms => ms
  | eps :: rest, ms =>
    slicesListLabels pods svcs rest (sliceTargetLabels eps ms pods svcs)

/-- An ObjectMeta with empty labels and annotations, for concrete test
objects. -/
def plainMeta (ns name : String) : ObjectMeta :=
  { ns := ns, name := name, uid := "", labels := [], annotations := [] }

/-- Concrete input of claim C1's counterexample: a pod with a single
container port 9090, cached under `ns1/p1`. -/
def ceC1Pod : Pod :=
  { metadata := plainMeta "ns1" "p1", nodeName := "", podIP := "10.0.0.1",
    hostIP := "", phase := "Running", ready := "true",
    containers := [{ name := "c1", image := "img",
                     ports := [{ name := "metrics", containerPort := 9090,
                                 protocol := "TCP" }] }] }

/-- Concrete input of claim C1's counterexample: an Endpoints whose single
subset references `ns1/p1` through a port (8080) that matches none of the
pod's container ports. -/
def ceC1Eps : Endpoints :=
  { metadata := plainMeta "ns1" "e1",
    subsets := [{ addresses := [{ hostname := "", ip := "10.0.0.1",
                                  nodeName := "",
                                  targetRef := { kind := "Pod", name := "p1",
                                                 ns := "ns1" } }],
                  notReadyAddresses := [],
                  ports := [{ appProtocol := "", name := "http", port := 8080,
                              protocol := "TCP" }] }] }

/-- The pod cache of claim C1's counterexample. -/
def ceC1Pods : Cache Pod := [("ns1/p1", ceC1Pod)]

/-- Concrete pod of claim C2's counterexample (`ns1/p1`). -/
def ceC2Pod : Pod :=
  { metadata := plainMeta "ns1" "p1", nodeName := "", podIP := "10.0.0.1",
    hostIP := "", phase := "Running", ready := "true", containers := [] }

/-- Concrete Endpoints of claim C2's counterexample: cached under
`ns1/svc1` and holding `ns1/p1` as an address target. -/
def ceC2Eps : Endpoints :=
  { metadata := plainMeta "ns1" "svc1",
    subsets := [{ addresses := [{ hostname := "", ip := "10.0.0.1",
                                  nodeName := "",
                                  targetRef := { kind := "Pod", name := "p1",
                                                 ns := "ns1" } }],
                  notReadyAddresses := [],
                  ports := [{ appProtocol := "", name := "http", port := 8080,
                              protocol := "TCP" }] }] }

/-- The shared cache of claim C2's counterexample: the Endpoints is cached
under its own key `ns1/svc1`. -/
def ceC2SC : SharedKubernetesCache :=
  { pods := [("ns1/p1", ceC2Pod)], services := [],
    endpoints := [("ns1/svc1", ceC2Eps)], endpointsSlices := [] }

/-- Endpoints of claim C2's witness: cached under the pod's own key
`ns1/p1`, the lookup key the source actually uses. -/
def wC2Eps : Endpoints := { metadata := plainMeta "ns1" "p1", subsets := [] }

/-- The shared cache of claim C2's witness. -/
def wC2SC : SharedKubernetesCache :=
  { pods := [], services := [], endpoints := [("ns1/p1", wC2Eps)],
    endpointsSlices := [] }

/-- Concrete service of claim C4's counterexample. -/
def ceC4Svc : Service :=
  { metadata := plainMeta "ns1" "svc1", serviceType := "ClusterIP",
    clusterIP := "10.1.1.1", externalName := "" }

/-- Concrete Endpoints metadata of claim C4's counterexample. -/
def ceC4Eps : Endpoints := { metadata := plainMeta "ns1" "svc1", subsets := [] }

/-- Concrete address of claim C4's counterexample. -/
def ceC4Addr : EndpointAddress :=
  { hostname := "", ip := "10.0.0.1", nodeName := "",
    targetRef := { kind := "", name := "", ns := "" } }

/-- Concrete port of claim C4's counterexample. -/
def ceC4Port : EndpointPort :=
  { appProtocol := "", name := "http", port := 8080, protocol := "TCP" }

/-- Concrete EndpointSlice of claim C5's failing input. -/
def ceC5Slice : EndpointSlice :=
  { metadata := plainMeta "ns1" "es1", addressType := "IPv4",
    endpoints := [], ports := [] }

/-- Concrete Endpoints of claim C7's counterexample: no subsets, so
`appendTargetLabels(nil, …)` appends nothing and the `ADDED` event carries
nil labels. -/
def ceC7Eps : Endpoints := { metadata := plainMeta "ns1" "e1", subsets := [] }

/-- First pod of claim C9's counterexample: container ports 80 (advertised)
and 9000 (skipped). -/
def ceC9Pod1 : Pod :=
  { metadata := plainMeta "ns1" "p1", nodeName := "", podIP := "10.0.0.1",
    hostIP := "", phase := "Running", ready := "true",
    containers := [{ name := "c1", image := "",
                     ports := [{ name := "", containerPort := 80, protocol := "TCP" },
                               { name := "", containerPort := 9000, protocol := "TCP" }] }] }

/-- Second pod of claim C9's counterexample: container ports 80 and 9001. -/
def ceC9Pod2 : Pod :=
  { metadata := plainMeta "ns1" "p2", nodeName := "", podIP := "10.0.0.2",
    hostIP := "", phase := "Running", ready := "true",
    containers := [{ name := "c1", image := "",
                     ports := [{ name := "", containerPort := 80, protocol := "TCP" },
                               { name := "", containerPort := 9001, protocol := "TCP" }] }] }

/-- Endpoints of claim C9's counterexample: one subset referencing both pods
on port 80, so `podPortsSeen` ends up with two entries. -/
def ceC9Eps : Endpoints :=
  { metadata := plainMeta "ns1" "e9",
    subsets := [{ addresses := [{ hostname := "", ip := "10.0.0.1", nodeName := "",
                                  targetRef := { kind := "Pod", name := "p1", ns := "ns1" } },
                                { hostname := "", ip := "10.0.0.2", nodeName := "",
                                  targetRef := { kind := "Pod", name := "p2", ns := "ns1" } }],
                  notReadyAddresses := [],
                  ports := [{ appProtocol := "", name := "http", port := 80,
                              protocol := "TCP" }] }] }

/-- The pod cache of claim C9's counterexample. -/
def ceC9Pods : Cache Pod := [("ns1/p1", ceC9Pod1), ("ns1/p2", ceC9Pod2)]

/-- The shared cache of claim C9's counterexample. -/
def ceC9SC : SharedKubernetesCache :=
  { pods := ceC9Pods, services := [], endpoints := [], endpointsSlices := [] }

/-- Endpoints used by several witnesses: same shape as claim C1's
counterexample input but with a matching container port, so pass 2 is
non-empty. -/
def wEps : Endpoints :=
  { metadata := plainMeta "ns1" "w1",
    subsets := [{ addresses := [{ hostname := "", ip := "10.0.0.1",
                                  nodeName := "",
                                  targetRef := { kind := "Pod", name := "p1",
                                                 ns := "ns1" } }],
                  notReadyAddresses := [],
                  ports := [{ appProtocol := "", name := "http", port := 80,
                              protocol := "TCP" }] }] }

/-- Pod used by several witnesses: ports 80 and 9000. -/
def wPod : Pod :=
  { metadata := plainMeta "ns1" "p1", nodeName := "", podIP := "10.0.0.1",
    hostIP := "", phase := "Running", ready := "true",
    containers := [{ name := "c1", image := "",
                     ports := [{ name := "", containerPort := 80, protocol := "TCP" },
                               { name := "", containerPort := 9000, protocol := "TCP" }] }] }

/-- Pod cache used by several witnesses. -/
def wPods : Cache Pod := [("ns1/p1", wPod)]

/-- EndpointSlice used by claim C10's witness: one port and one endpoint
referencing the witness pod. -/
def wSlice : EndpointSlice :=
  { metadata := plainMeta "ns1" "ws1", addressType := "IPv4",
    endpoints := [{ addresses := ["10.0.0.1"], ready := true,
                    targetRef := { kind := "Pod", name := "p1", ns := "ns1" } }],
    ports := [{ appProtocol := "", name := "http", port := 80,
                protocol := "TCP" }] }

/-! ## Generic lemmas about the association-list operations -/

theorem alLookup_alStore {α : Type} (m : List (String × α)) (k : String)
    (v : α) (k' : String) :
    alLookup (alStore m k v) k' = if k = k' then some v else alLookup m k' := by
  induction m with
  | nil => simp [alStore, alLookup]
  | cons kv rest ih =>
    obtain ⟨k0, v0⟩ := kv
    by_cases h0 : k0 = k
    · subst h0
      by_cases h1 : k0 = k'
      · subst h1; simp [alStore, alLookup]
      · simp [alStore, alLookup, h1]
    · by_cases h1 : k0 = k'
      · subst h1
        have : ¬ k = k0 := fun h => h0 h.symm
        simp [alStore, alLookup, h0, this]
      · simp [alStore, alLookup, h0, h1, ih]

theorem alStore_mem {α : Type} (k : String) (v : α) (x : String × α) :
    ∀ m : List (String × α), x ∈ alStore m k v → x = (k, v) ∨ x ∈ m := by
  intro m
  induction m with
  | nil => intro hx; simpa [alStore] using hx
  | cons kv rest ih =>
    obtain ⟨k0, v0⟩ := kv
    intro hx
    by_cases h0 : k0 = k
    · subst h0
      simp only [alStore, if_pos rfl] at hx
      cases hx with
      | head => exact Or.inl rfl
      | tail _ hx => exact Or.inr (List.mem_cons_of_mem _ hx)
    · simp only [alStore, if_neg h0] at hx
      cases hx with
      | head => exact Or.inr (List.mem_cons_self _ _)
      | tail _ hx =>
        rcases ih hx with hx | hx
        · exact Or.inl hx
        · exact Or.inr (List.mem_cons_of_mem _ hx)

theorem applyPairs_cons (m : LabelMap) (p : String × String) (ps : LabelPairs) :
    applyPairs m (p :: ps) = applyPairs (alStore m p.1 p.2) ps := rfl

theorem applyPairs_append (m : LabelMap) (ps qs : LabelPairs) :
    applyPairs m (ps ++ qs) = applyPairs (applyPairs m ps) qs := by
  simp [applyPairs, List.foldl_append]

theorem applyPairs_mem (ps : LabelPairs) :
    ∀ (m : LabelMap) (x : String × String), x ∈ applyPairs m ps →
      x ∈ m ∨ ∃ kv ∈ ps, x.1 = kv.1 := by
  induction ps with
  | nil => intro m x hx; exact Or.inl hx
  | cons p rest ih =>
    intro m x hx
    rw [applyPairs_cons] at hx
    rcases ih _ x hx with hx | ⟨kv, hkv, hx1⟩
    · rcases alStore_mem _ _ _ _ hx with hx | hx
      · exact Or.inr ⟨p, List.mem_cons_self _ _, by rw [hx]⟩
      · exact Or.inl hx
    · exact Or.inr ⟨kv, List.mem_cons_of_mem _ hkv, hx1⟩

theorem lastVal_nil (k : String) : lastVal [] k = none := rfl

theorem lastVal_cons (p : String × String) (ps : LabelPairs) (k : String) :
    lastVal (p :: ps) k =
      (lastVal ps k).or (if p.1 = k then some p.2 else none) := by
  unfold lastVal
  rw [List.reverse_cons, List.find?_append]
  by_cases h : p.1 = k
  · have hb : (p.1 == k) = true := by simp [h]
    cases hfind : List.find? (fun kv => kv.1 == k) ps.reverse <;>
      simp [List.find?, hb, hfind, h]
  · have hb : (p.1 == k) = false := by simp [h]
    cases hfind : List.find? (fun kv => kv.1 == k) ps.reverse <;>
      simp [List.find?, hb, hfind, h]

theorem alLookup_applyPairs (ps : LabelPairs) :
    ∀ (m : LabelMap) (k : String),
      alLookup (applyPairs m ps) k = (lastVal ps k).or (alLookup m k) := by
  induction ps with
  | nil => intro m k; simp [applyPairs, lastVal_nil]
  | cons p rest ih =>
    intro m k
    rw [applyPairs_cons, ih, lastVal_cons, alLookup_alStore, Option.or_assoc]
    congr 1
    by_cases h : p.1 = k <;> simp [h]

theorem strAppendAssoc (a b c : String) : a ++ b ++ c = a ++ (b ++ c) := by
  apply String.ext
  simp [String.data_append, List.append_assoc]

/-! ## Claim C3: the reconnect backoff sequence of `startWatchForResource` -/

theorem startWatchBackoffs_eq (n : Nat) :
    startWatchBackoffs n = if n < 6 then 1 + 5 * n else 31 := by
  induction n with
  | zero => rfl
  | succ n ih =>
    simp only [startWatchBackoffs, ih]
    split_ifs <;> omega

/-- Claim C3, counterexample: the first sleep taken by `startWatchForResource`
under continuous failure is 6 seconds, not the 1 second the claim's sequence
starts with — the backoff increment at lines 345-347 runs before the first
`time.Sleep`. -/
theorem claimC3_counterexample :
    startWatchSleep 0 = 6 ∧ claimC3SleepSeq 0 = 1 ∧
      startWatchSleep 0 ≠ claimC3SleepSeq 0 := by decide

/-- Claim C3, amended: under continuous watch-stream failure the sleeps of
`startWatchForResource` are 6, 11, 16, 21, 26, 31, 31, … seconds — the
backoff starts at 1 s but is incremented by 5 s before every sleep while
still below 30 s, so the first sleep is 6 s and the fixed point is 31 s. -/
theorem claimC3_amended (n : Nat) :
    startWatchSleep n = if n < 5 then 6 + 5 * n else 31 := by
  unfold startWatchSleep
  rw [startWatchBackoffs_eq]
  split_ifs <;> omega

/-! ## Claim C6: short-buffer handling of `readJSONObject` -/

theorem readJSONObjectLoop_ok (n : Nat) :
    ∀ (frame : List Char) (cap : Nat) (acc : List Char), frame.length ≤ n →
      acc.length < cap → readJSONObjectLoop frame cap acc = Except.ok (acc ++ frame) := by
  induction n with
  | zero =>
    intro frame cap acc hlen hcap
    have : frame.length ≤ cap - acc.length := by omega
    rw [readJSONObjectLoop, if_pos this]
  | succ n ih =>
    intro frame cap acc hlen hcap
    by_cases hfit : frame.length ≤ cap - acc.length
    · rw [readJSONObjectLoop, if_pos hfit]
    · have havail : ¬ (cap - acc.length = 0) := by omega
      rw [readJSONObjectLoop, if_neg hfit, dif_neg havail]
      have hrec := ih (frame.drop (cap - acc.length)) (cap * 2)
        (acc ++ frame.take (cap - acc.length))
        (by simp [List.length_drop]; omega)
        (by simp [List.length_append, List.length_take]; omega)
      rw [hrec, List.append_assoc, List.take_append_drop]

/-- Claim C6: fed by the framed JSON reader (modelled from §4.2 of the spec,
the source's `newJSONFramedReader` not being among the provided files), a
short-buffer signal makes `readJSONObject` double its buffer, carry the bytes
already read and continue, and is never surfaced: starting from the 1024-byte
buffer of `getStreamAPIResponse`, a frame of any size is returned whole and
without error (first conjunct), and each short-buffer step is exactly the
doubling-and-carrying recursion (second conjunct). -/
theorem claimC6_main :
    (∀ frame : List Char, readJSONObject frame = Except.ok frame) ∧
    (∀ (frame : List Char) (cap : Nat) (acc : List Char), acc.length < cap →
      cap - acc.length < frame.length →
      readJSONObjectLoop frame cap acc =
        readJSONObjectLoop (frame.drop (cap - acc.length)) (cap * 2)
          (acc ++ frame.take (cap - acc.length))) := by
  constructor
  · intro frame
    unfold readJSONObject
    rw [readJSONObjectLoop_ok frame.length frame 1024 [] le_rfl (by norm_num)]
    rfl
  · intro frame cap acc hcap hshort
    rw [readJSONObjectLoop, if_neg (by omega), dif_neg (by omega)]

/-- Claim C6, witness: a 3-byte frame read through a 2-byte buffer holding
one byte already: the short-buffer step doubles the capacity to 4 and carries
the byte `a`; and a whole frame comes back intact from the 1024-byte start. -/
theorem claimC6_witness :
    readJSONObject ['x', 'y'] = Except.ok ['x', 'y'] ∧
      readJSONObjectLoop ['a', 'b', 'c'] 2 ['z'] =
        readJSONObjectLoop ['b', 'c'] 4 ['z', 'a'] :=
  ⟨claimC6_main.1 ['x', 'y'],
   by
    have h := claimC6_main.2 ['a', 'b', 'c'] 2 ['z'] (by decide) (by decide)
    simpa using h⟩

/-! ## Claim C7: DELETED events of `processEndpoints` -/

theorem buildSyncKey_endpoints (setName ns name : String) :
    buildSyncKey "endpoints" setName (ns ++ "/" ++ name) =
      "endpoints/" ++ setName ++ "/" ++ ns ++ "/" ++ name := by
  unfold buildSyncKey
  rw [show ("endpoints" : String) ++ "/" = "endpoints/" from rfl]
  simp [strAppendAssoc]

/-- Claim C7, counterexample: an `ADDED` action also produces a nil-Labels
event when the Endpoints has no subsets — `appendTargetLabels(nil, …)`
appends nothing and the Go nil slice is sent — so `DELETED` is not the only
action value producing nil Labels. -/
theorem claimC7_counterexample :
    processEndpoints "set1" emptySharedCache ceC7Eps "ADDED" =
      [{ key := "endpoints/set1/ns1/e1", labels := [],
         configSectionSet := "set1" }] := by decide

/-- Claim C7, amended: `DELETED` sends exactly one event with nil Labels and
key `"endpoints/" + setName + "/" + namespace + "/" + name`; `ADDED` and
`MODIFIED` send exactly one event with the same key; any other action sends
nothing; and a nil-Labels event arises from `DELETED` or from an
`ADDED`/`MODIFIED` whose label builder returns the empty (nil) list. -/
theorem claimC7_amended (setName : String) (sc : SharedKubernetesCache)
    (eps : Endpoints) (action : String) :
    (action = "DELETED" →
      processEndpoints setName sc eps action =
        [{ key := "endpoints/" ++ setName ++ "/" ++ eps.metadata.ns ++ "/" ++
             eps.metadata.name,
           labels := [], configSectionSet := setName }]) ∧
    ((action = "ADDED" ∨ action = "MODIFIED") →
      processEndpoints setName sc eps action =
        [{ key := "endpoints/" ++ setName ++ "/" ++ eps.metadata.ns ++ "/" ++
             eps.metadata.name,
           labels := appendTargetLabels eps [] sc.pods sc.services,
           configSectionSet := setName }]) ∧
    (action ≠ "ADDED" → action ≠ "MODIFIED" → action ≠ "DELETED" →
      processEndpoints setName sc eps action = []) ∧
    (∀ ev ∈ processEndpoints setName sc eps action, ev.labels = [] →
      action = "DELETED" ∨ appendTargetLabels eps [] sc.pods sc.services = []) := by
  have hkey : buildSyncKey "endpoints" setName eps.key =
      "endpoints/" ++ setName ++ "/" ++ eps.metadata.ns ++ "/" ++
        eps.metadata.name :=
    buildSyncKey_endpoints setName eps.metadata.ns eps.metadata.name
  refine ⟨?_, ?_, ?_, ?_⟩
  · intro h
    subst h
    simp [processEndpoints, processEndpointsIter, hkey]
  · intro h
    rcases h with h | h <;> subst h <;>
      simp [processEndpoints, processEndpointsIter, hkey, appendTargetLabels]
  · intro h1 h2 h3
    simp [processEndpoints, processEndpointsIter, h1, h2, h3]
  · intro ev hev hlab
    by_cases hA : action = "ADDED" ∨ action = "MODIFIED"
    · right
      have : ev.labels = appendTargetLabelsIter id eps [] sc.pods sc.services := by
        simp only [processEndpoints, processEndpointsIter, if_pos hA,
          List.mem_singleton] at hev
        rw [hev]
      rw [appendTargetLabels, ← this, hlab]
    · by_cases hD : action = "DELETED"
      · exact Or.inl hD
      · simp [processEndpoints, processEndpointsIter, hA, hD] at hev

/-- Claim C7, witness: the amended statement at a `DELETED` action on a
concrete Endpoints object. -/
theorem claimC7_witness :
    processEndpoints "set1" emptySharedCache ceC7Eps "DELETED" =
      [{ key := "endpoints/set1/ns1/e1", labels := [],
         configSectionSet := "set1" }] := by
  have h := (claimC7_amended "set1" emptySharedCache ceC7Eps "DELETED").1 rfl
  simpa using h

/-! ## Claim C4: the overlay order of `getEndpointLabelsForAddressAndPort` -/

theorem foldl_applyPairs_flatten (ovs : List LabelPairs) :
    ∀ m : LabelMap, ovs.foldl applyPairs m = applyPairs m ovs.flatten := by
  induction ovs with
  | nil => intro m; rfl
  | cons ov rest ih =>
    intro m
    rw [List.flatten_cons, applyPairs_append, List.foldl_cons, ih]

/-- Claim C4, counterexample: at a concrete input the overlay sequence the
source applies (`endpoints.go` lines 146-150) is skeleton, then service
common labels, then endpoints-metadata labels — not the claimed skeleton,
endpoints, service order. -/
theorem claimC4_counterexample :
    endpointOverlaySeq ceC4Eps ceC4Addr ceC4Port (some ceC4Svc) "true" =
      [endpointSkeletonPairs ceC4Eps.metadata ceC4Addr ceC4Port "true",
       svcCommonPairs ceC4Svc,
       metaLabelPairs "__meta_kubernetes_endpoints" ceC4Eps.metadata] ∧
    endpointOverlaySeq ceC4Eps ceC4Addr ceC4Port (some ceC4Svc) "true" ≠
      [endpointSkeletonPairs ceC4Eps.metadata ceC4Addr ceC4Port "true",
       metaLabelPairs "__meta_kubernetes_endpoints" ceC4Eps.metadata,
       svcCommonPairs ceC4Svc] := by
  constructor
  · rfl
  · decide

/-- Claim C4, amended: the overlay order is initial skeleton first, then
service common labels, then endpoints-metadata labels (endpoints labels beat
service labels beat the skeleton), and for every key the final value is the
last value written across the overlays in that order. -/
theorem claimC4_amended (eps : Endpoints) (ea : EndpointAddress)
    (epp : EndpointPort) (svc : Option Service) (ready : String) (k : String) :
    alLookup (endpointBaseLabels eps ea epp svc ready) k =
      lastVal (endpointOverlaySeq eps ea epp svc ready).flatten k := by
  unfold endpointBaseLabels
  rw [foldl_applyPairs_flatten, alLookup_applyPairs]
  simp [alLookup]

/-! ## Claim C2: pod MODIFIED events under the endpoints role -/

/-- Claim C2, counterexample: a cached Endpoints (`ns1/svc1`) holds the
modified pod (`ns1/p1`) as an address target, yet the handler emits no
event — the source looks the Endpoints cache up by the pod's own key
(`sc.Endpoints.Load(p.key())`), not by "has this pod as a target". -/
theorem claimC2_counterexample :
    (∃ ss ∈ ceC2Eps.subsets, ∃ ea ∈ ss.addresses,
      ea.targetRef.kind = "Pod" ∧ ea.targetRef.key = ceC2Pod.key) ∧
    alLookup ceC2SC.endpoints ceC2Eps.key = some ceC2Eps ∧
    (endpointsRolePodWatchHandler "s" ceC2SC ceC2Pod "MODIFIED").2 = [] := by
  refine ⟨?_, by decide, by decide⟩
  refine ⟨ceC2Eps.subsets.head (by decide), by decide, ?_⟩
  exact ⟨{ hostname := "", ip := "10.0.0.1", nodeName := "",
           targetRef := { kind := "Pod", name := "p1", ns := "ns1" } },
         by decide, by decide, by decide⟩

/-- Claim C2, amended: on a pod `MODIFIED` event the endpoints-role pod
watcher updates the pod cache and re-emits a `SyncEvent` for the Endpoints
object stored under the pod's own key (namespace/name), when one is cached,
with labels freshly built against the updated pod cache. -/
theorem claimC2_amended (setName : String) (sc : SharedKubernetesCache)
    (p : Pod) (ep : Endpoints)
    (h : alLookup sc.endpoints p.key = some ep) :
    endpointsRolePodWatchHandler setName sc p "MODIFIED" =
      ({ sc with pods := updatePodCache sc.pods p "MODIFIED" },
       [{ key := buildSyncKey "endpoints" setName ep.key,
          labels := appendTargetLabels ep []
            (updatePodCache sc.pods p "MODIFIED") sc.services,
          configSectionSet := setName }]) := by
  simp [endpointsRolePodWatchHandler, h, processEndpoints, processEndpointsIter,
    appendTargetLabels]

/-- Claim C2, witness: the amended statement at a concrete cache holding an
Endpoints under the pod's key `ns1/p1`. -/
theorem claimC2_witness :
    endpointsRolePodWatchHandler "s" wC2SC ceC2Pod "MODIFIED" =
      ({ wC2SC with pods := updatePodCache wC2SC.pods ceC2Pod "MODIFIED" },
       [{ key := buildSyncKey "endpoints" "s" wC2Eps.key,
          labels := appendTargetLabels wC2Eps []
            (updatePodCache wC2SC.pods ceC2Pod "MODIFIED") wC2SC.services,
          configSectionSet := "s" }]) :=
  claimC2_amended "s" wC2SC ceC2Pod wC2Eps (by decide)

/-! ## Claim C5: bootstrap cache updates (endpointslices omission) -/

/-- Claim C5: the endpointslices bootstrap (watch file lines 256-266)
synthesizes the `ADDED` event for a listed slice but never stores it in the
EndpointSlice cache — the cache stays empty — whereas the watch handler for
the very same object does store it; the claim's "updates that item's cache
…, including the EndpointSlice cache for role endpointslices" is what the
endpoints-role bootstrap does (line 162) and what the slices watch handler
does (line 255), but the slices bootstrap omits it. -/
theorem claimC5_main :
    ((endpointSlicesBootstrap "s" emptySharedCache [ceC5Slice] []).1).endpointsSlices = [] ∧
    (endpointSlicesBootstrap "s" emptySharedCache [ceC5Slice] []).2.1 =
      [{ key := "endpointslices/s/ns1/es1", labels := [],
         configSectionSet := "s" }] ∧
    ((endpointSlicesWatchHandler "s" emptySharedCache ceC5Slice "ADDED").1).endpointsSlices =
      [("ns1/es1", ceC5Slice)] := by decide

/-! ## Claim C10: ordering of the endpoints-role bootstrap -/

theorem endpointsKindBootstrap_labels (setName : String) :
    ∀ (el : List Endpoints) (sc : SharedKubernetesCache) (ms : List LabelMap),
      (endpointsKindBootstrap setName sc el ms).2.2 =
        endpointsListLabels sc.pods sc.services el ms := by
  intro el
  induction el with
  | nil => intro sc ms; rfl
  | cons ep rest ih =>
    intro sc ms
    simp only [endpointsKindBootstrap, endpointsListLabels]
    exact ih _ _

theorem watchObjectTrace_mem (k : String) (nss : List String) (e : BootEv)
    (h : e ∈ watchObjectTrace k nss) :
    ∃ ns, e = BootEv.fetch k ns ∨ e = BootEv.fold k ns ∨ e = BootEv.spawn k ns := by
  cases nss with
  | nil =>
    simp only [watchObjectTrace, List.mem_cons, List.mem_singleton,
      List.not_mem_nil, or_false] at h
    rcases h with h | h | h <;> exact ⟨"", by simp [h]⟩
  | cons ns0 rest =>
    simp only [watchObjectTrace, List.mem_flatMap, List.mem_cons,
      List.mem_singleton, List.not_mem_nil, or_false] at h
    obtain ⟨ns, _, hns⟩ := h
    rcases hns with h | h | h <;> exact ⟨ns, by simp [h]⟩

theorem endpointSlicesBootstrap_labels (setName : String) :
    ∀ (sl : List EndpointSlice) (sc : SharedKubernetesCache) (ms : List LabelMap),
      (endpointSlicesBootstrap setName sc sl ms).2.2 =
        slicesListLabels sc.pods sc.services sl ms := by
  intro sl
  induction sl with
  | nil => intro sc ms; rfl
  | cons eps rest ih =>
    intro sc ms
    simp only [endpointSlicesBootstrap, slicesListLabels]
    exact ih _ _

/-- Claim C10: in the endpoints role and in the endpointslices role alike,
the pod and the service lists are fetched and folded synchronously, each
before its own watch goroutine is spawned and both strictly before the
endpoints (respectively endpointslices) list is fetched — each role's trace
splits into a pods-and-services part with no endpoints/endpointslices fetch,
followed by a part with no pod or service fold — and consequently the
bootstrap join of the listed Endpoints (respectively EndpointSlices) runs
against the fully folded pod and service caches. -/
theorem claimC10_main (nss : List String) (setName : String)
    (pl : List Pod) (sl : List Service) (el : List Endpoints)
    (ell : List EndpointSlice) :
    (∃ A C, endpointsRoleTrace nss = A ++ C ∧
      A = watchObjectTrace "pods" nss ++ watchObjectTrace "services" nss ∧
      C = watchObjectTrace "endpoints" nss ∧
      (∀ e ∈ A, ∀ ns, e ≠ BootEv.fetch "endpoints" ns) ∧
      (∀ e ∈ C, ∀ ns, e ≠ BootEv.fold "pods" ns ∧ e ≠ BootEv.fold "services" ns)) ∧
    (runEndpointsRoleBootstrap setName pl sl el).2.2 =
      endpointsListLabels (buildPodCacheFrom [] pl) (buildServiceCacheFrom [] sl)
        el [] ∧
    (∃ A C, endpointSlicesRoleTrace nss = A ++ C ∧
      A = watchObjectTrace "pods" nss ++ watchObjectTrace "services" nss ∧
      C = watchObjectTrace "endpointslices" nss ∧
      (∀ e ∈ A, ∀ ns, e ≠ BootEv.fetch "endpointslices" ns) ∧
      (∀ e ∈ C, ∀ ns, e ≠ BootEv.fold "pods" ns ∧ e ≠ BootEv.fold "services" ns)) ∧
    (runEndpointSlicesRoleBootstrap setName pl sl ell).2.2 =
      slicesListLabels (buildPodCacheFrom [] pl) (buildServiceCacheFrom [] sl)
        ell [] := by
  refine ⟨?_, ?_, ?_, ?_⟩
  · refine ⟨_, _, ?_, rfl, rfl, ?_, ?_⟩
    · rw [endpointsRoleTrace, List.append_assoc]
    · intro e he ns
      rw [List.mem_append] at he
      rcases he with he | he <;>
        obtain ⟨ns', h'⟩ := watchObjectTrace_mem _ _ _ he <;>
        rcases h' with h' | h' | h' <;> subst h' <;> simp
    · intro e he ns
      obtain ⟨ns', h'⟩ := watchObjectTrace_mem _ _ _ he
      rcases h' with h' | h' | h' <;> subst h' <;> simp
  · rw [runEndpointsRoleBootstrap, endpointsKindBootstrap_labels]
    rfl
  · refine ⟨_, _, ?_, rfl, rfl, ?_, ?_⟩
    · rw [endpointSlicesRoleTrace, List.append_assoc]
    · intro e he ns
      rw [List.mem_append] at he
      rcases he with he | he <;>
        obtain ⟨ns', h'⟩ := watchObjectTrace_mem _ _ _ he <;>
        rcases h' with h' | h' | h' <;> subst h' <;> simp
    · intro e he ns
      obtain ⟨ns', h'⟩ := watchObjectTrace_mem _ _ _ he
      rcases h' with h' | h' | h' <;> subst h' <;> simp
  · rw [runEndpointSlicesRoleBootstrap, endpointSlicesBootstrap_labels]
    rfl

/-- Claim C10, witness: the bootstrap-join conclusions of both roles at one
namespace and concrete one-element lists. -/
theorem claimC10_witness :
    ((runEndpointsRoleBootstrap "s" [wPod] [] [wEps]).2.2 =
      endpointsListLabels (buildPodCacheFrom [] [wPod])
        (buildServiceCacheFrom [] []) [wEps] []) ∧
    ((runEndpointSlicesRoleBootstrap "s" [wPod] [] [wSlice]).2.2 =
      slicesListLabels (buildPodCacheFrom [] [wPod])
        (buildServiceCacheFrom [] []) [wSlice] []) :=
  ⟨(claimC10_main ["nsA"] "s" [wPod] [] [wEps] [wSlice]).2.1,
   (claimC10_main ["nsA"] "s" [wPod] [] [wEps] [wSlice]).2.2.2⟩

/-! ## Counting lemmas for `appendTargetLabels` (pass 1 and pass 2) -/

theorem appendAddrs_fst_len (eps : Endpoints) (epp : EndpointPort)
    (pods : Cache Pod) (svc : Option Service) (ready : String) :
    ∀ (eas : List EndpointAddress) (ms : List LabelMap) (seen : PodPortsSeen),
      ((appendEndpointLabelsForAddresses ms seen eps eas epp pods svc ready).1).length =
        ms.length + eas.length := by
  intro eas
  induction eas with
  | nil => intro ms seen; simp [appendEndpointLabelsForAddresses]
  | cons ea rest ih =>
    intro ms seen
    simp only [appendEndpointLabelsForAddresses]
    rw [ih]
    simp [List.length_append]
    omega

theorem subsetLoop_fst_len (eps : Endpoints) (pods : Cache Pod)
    (svc : Option Service) (ss : EndpointSubset) :
    ∀ (pps : List EndpointPort) (ms : List LabelMap) (seen : PodPortsSeen),
      ((endpointsSubsetLoop eps pods svc ss pps ms seen).1).length =
        ms.length + pps.length * (ss.addresses.length + ss.notReadyAddresses.length) := by
  intro pps
  induction pps with
  | nil => intro ms seen; simp [endpointsSubsetLoop]
  | cons epp rest ih =>
    intro ms seen
    simp only [endpointsSubsetLoop]
    rw [ih, appendAddrs_fst_len, appendAddrs_fst_len, List.length_cons]
    ring

theorem pass1_fst_len (eps : Endpoints) (pods : Cache Pod)
    (svc : Option Service) :
    ∀ (sss : List EndpointSubset) (ms : List LabelMap) (seen : PodPortsSeen),
      ((endpointsPass1 eps pods svc sss ms seen).1).length =
        ms.length + (sss.map subsetPass1Count).sum := by
  intro sss
  induction sss with
  | nil => intro ms seen; simp [endpointsPass1]
  | cons ss rest ih =>
    intro ms seen
    simp only [endpointsPass1]
    rw [ih, subsetLoop_fst_len, List.map_cons, List.sum_cons, subsetPass1Count]
    ring

theorem podContainersScan_snd (k : String) (p : Pod) (epp : EndpointPort) :
    ∀ (cs : List PodContainer) (m m' : LabelMap) (seen : PodPortsSeen),
      (podContainersScan cs k p epp m seen).2 =
        (podContainersScan cs k p epp m' seen).2 := by
  intro cs
  induction cs with
  | nil => intros; rfl
  | cons c rest ih =>
    intro m m' seen
    cases hf : c.ports.find? (fun cp => cp.containerPort == epp.port) with
    | some cp => simp only [podContainersScan, hf]; exact ih _ _ _
    | none => simp only [podContainersScan, hf]; exact ih _ _ _

theorem getEndpointLabelsForAddressAndPort_snd (seen : PodPortsSeen)
    (eps : Endpoints) (ea : EndpointAddress) (epp : EndpointPort)
    (pOpt : Option Pod) (svc svc' : Option Service) (ready : String) :
    (getEndpointLabelsForAddressAndPort seen eps ea epp pOpt svc ready).2 =
      (getEndpointLabelsForAddressAndPort seen eps ea epp pOpt svc' ready).2 := by
  cases pOpt with
  | none => rfl
  | some p =>
    simp only [getEndpointLabelsForAddressAndPort]
    by_cases hk : ea.targetRef.kind ≠ "Pod"
    · simp [hk]
    · simp only [if_neg hk]
      exact podContainersScan_snd ea.targetRef.key p epp p.containers _ _ seen

theorem appendAddrs_snd (eps : Endpoints) (epp : EndpointPort)
    (pods : Cache Pod) (ready : String) (svc svc' : Option Service) :
    ∀ (eas : List EndpointAddress) (ms ms' : List LabelMap) (seen : PodPortsSeen),
      (appendEndpointLabelsForAddresses ms seen eps eas epp pods svc ready).2 =
        (appendEndpointLabelsForAddresses ms' seen eps eas epp pods svc' ready).2 := by
  intro eas
  induction eas with
  | nil => intros; rfl
  | cons ea rest ih =>
    intro ms ms' seen
    simp only [appendEndpointLabelsForAddresses]
    rw [getEndpointLabelsForAddressAndPort_snd seen eps ea epp
      (alLookup pods ea.targetRef.key) svc svc' ready]
    exact ih _ _ _

theorem subsetLoop_snd (eps : Endpoints) (pods : Cache Pod)
    (ss : EndpointSubset) (svc svc' : Option Service) :
    ∀ (pps : List EndpointPort) (ms ms' : List LabelMap) (seen : PodPortsSeen),
      (endpointsSubsetLoop eps pods svc ss pps ms seen).2 =
        (endpointsSubsetLoop eps pods svc' ss pps ms' seen).2 := by
  intro pps
  induction pps with
  | nil => intros; rfl
  | cons epp rest ih =>
    intro ms ms' seen
    simp only [endpointsSubsetLoop]
    rw [appendAddrs_snd eps epp pods "true" svc svc' ss.addresses ms ms' seen,
      appendAddrs_snd eps epp pods "false" svc svc' ss.notReadyAddresses _ _ _]
    exact ih _ _ _

theorem pass1_snd (eps : Endpoints) (pods : Cache Pod)
    (svc svc' : Option Service) :
    ∀ (sss : List EndpointSubset) (ms ms' : List LabelMap) (seen : PodPortsSeen),
      (endpointsPass1 eps pods svc sss ms seen).2 =
        (endpointsPass1 eps pods svc' sss ms' seen).2 := by
  intro sss
  induction sss with
  | nil => intros; rfl
  | cons ss rest ih =>
    intro ms ms' seen
    simp only [endpointsPass1]
    rw [subsetLoop_snd eps pods ss svc svc' ss.ports ms ms' seen]
    exact ih _ _ _

theorem pass1_seen_eq (eps : Endpoints) (pods : Cache Pod)
    (svc : Option Service) (ms : List LabelMap) :
    (endpointsPass1 eps pods svc eps.subsets ms []).2 = seenOf eps pods :=
  pass1_snd eps pods svc none eps.subsets ms [] []

theorem pass2_len (svc : Option Service) :
    ∀ (l : PodPortsSeen) (ms : List LabelMap),
      (endpointsPass2 svc l ms).length =
        ms.length + (l.map (fun e => (pass2EntryTargets svc e).length)).sum := by
  intro l
  induction l with
  | nil => intro ms; simp [endpointsPass2]
  | cons e rest ih =>
    intro ms
    simp only [endpointsPass2]
    rw [ih]
    simp [List.length_append]
    omega

theorem filterMapIf_length {α β : Type} (f : α → β) (pr : α → Bool) :
    ∀ l : List α,
      (l.filterMap (fun a => if pr a then none else some (f a))).length =
        (l.filter (fun a => !pr a)).length := by
  intro l
  induction l with
  | nil => rfl
  | cons a rest ih =>
    cases hp : pr a <;>
      simp [List.filterMap_cons, List.filter_cons, hp, ih]

theorem pass2EntryTargets_len (svc : Option Service) (e : String × Pod × List Int) :
    (pass2EntryTargets svc e).length = entryUncoveredCount e := by
  unfold pass2EntryTargets entryUncoveredCount
  rw [List.length_flatMap]
  congr 1
  apply List.map_congr_left
  intro c _
  unfold pass2ContainerTargets
  exact filterMapIf_length _ _ _

theorem appendTargetLabelsIter_len (iter : PodPortsSeen → PodPortsSeen)
    (hiter : ∀ l, List.Perm (iter l) l) (eps : Endpoints) (ms : List LabelMap)
    (pods : Cache Pod) (svcs : Cache Service) :
    (appendTargetLabelsIter iter eps ms pods svcs).length =
      ms.length + pass1Count eps + pass2Count eps pods := by
  unfold appendTargetLabelsIter
  rw [pass2_len, pass1_fst_len, pass1_seen_eq]
  have hperm := (hiter (seenOf eps pods)).map
    (fun e => (pass2EntryTargets (alLookup svcs eps.key) e).length)
  rw [hperm.sum_eq]
  have hmap : (seenOf eps pods).map
      (fun e => (pass2EntryTargets (alLookup svcs eps.key) e).length) =
      (seenOf eps pods).map entryUncoveredCount :=
    List.map_congr_left (fun e _ => pass2EntryTargets_len _ e)
  rw [hmap]
  rfl

theorem appendTargetLabels_len (eps : Endpoints) (ms : List LabelMap)
    (pods : Cache Pod) (svcs : Cache Service) :
    (appendTargetLabels eps ms pods svcs).length =
      ms.length + pass1Count eps + pass2Count eps pods :=
  appendTargetLabelsIter_len id (fun l => List.Perm.refl l) eps ms pods svcs

/-! ## Provenance of the `podPortsSeen` entries (pass 1 records only
referenced, cached pods) -/

theorem seenRecord_inv (Q : String → Pod → Prop) (k : String) (p : Pod)
    (port : Int) :
    ∀ seen : PodPortsSeen, (∀ e ∈ seen, Q e.1 e.2.1) → Q k p →
      ∀ e ∈ seenRecord seen k p port, Q e.1 e.2.1 := by
  intro seen
  induction seen with
  | nil =>
    intro _ hq e he
    simp only [seenRecord, List.mem_singleton] at he
    subst he
    exact hq
  | cons e0 rest ih =>
    intro hs hq e he
    obtain ⟨k0, p0, ports0⟩ := e0
    by_cases h0 : k0 = k
    · simp only [seenRecord, if_pos h0] at he
      cases he with
      | head => exact hs (k0, p0, ports0) (List.mem_cons_self _ _)
      | tail _ hmem => exact hs _ (List.mem_cons_of_mem _ hmem)
    · simp only [seenRecord, if_neg h0] at he
      cases he with
      | head => exact hs _ (List.mem_cons_self _ _)
      | tail _ hmem =>
        exact ih (fun e' he' => hs e' (List.mem_cons_of_mem _ he')) hq e hmem

theorem podContainersScan_inv (Q : String → Pod → Prop) (k : String) (p : Pod)
    (epp : EndpointPort) :
    ∀ (cs : List PodContainer) (m : LabelMap) (seen : PodPortsSeen),
      (∀ e ∈ seen, Q e.1 e.2.1) → Q k p →
      ∀ e ∈ (podContainersScan cs k p epp m seen).2, Q e.1 e.2.1 := by
  intro cs
  induction cs with
  | nil => intro m seen hs _ e he; exact hs e he
  | cons c rest ih =>
    intro m seen hs hq e he
    cases hf : c.ports.find? (fun cp => cp.containerPort == epp.port) with
    | some cp =>
      simp only [podContainersScan, hf] at he
      exact ih _ _ (seenRecord_inv Q k p cp.containerPort seen hs hq) hq e he
    | none =>
      simp only [podContainersScan, hf] at he
      exact ih _ _ hs hq e he

theorem getEndpointLabelsForAddressAndPort_inv (Q : String → Pod → Prop)
    (seen : PodPortsSeen) (eps : Endpoints) (ea : EndpointAddress)
    (epp : EndpointPort) (pOpt : Option Pod) (svc : Option Service)
    (ready : String)
    (hs : ∀ e ∈ seen, Q e.1 e.2.1)
    (hp : ∀ p, pOpt = some p → ea.targetRef.kind = "Pod" → Q ea.targetRef.key p) :
    ∀ e ∈ (getEndpointLabelsForAddressAndPort seen eps ea epp pOpt svc ready).2,
      Q e.1 e.2.1 := by
  cases pOpt with
  | none =>
    intro e he
    simp only [getEndpointLabelsForAddressAndPort] at he
    exact hs e he
  | some p =>
    by_cases hk : ea.targetRef.kind ≠ "Pod"
    · intro e he
      simp only [getEndpointLabelsForAddressAndPort, if_pos hk] at he
      exact hs e he
    · intro e he
      simp only [getEndpointLabelsForAddressAndPort, if_neg hk] at he
      have hkind : ea.targetRef.kind = "Pod" := not_ne_iff.mp hk
      exact podContainersScan_inv Q ea.targetRef.key p epp p.containers _ seen
        hs (hp p rfl hkind) e he

theorem appendAddrs_inv (Q : String → Pod → Prop) (eps : Endpoints)
    (epp : EndpointPort) (pods : Cache Pod) (svc : Option Service)
    (ready : String) :
    ∀ (eas : List EndpointAddress) (ms : List LabelMap) (seen : PodPortsSeen),
      (∀ e ∈ seen, Q e.1 e.2.1) →
      (∀ ea ∈ eas, ∀ p, alLookup pods ea.targetRef.key = some p →
        ea.targetRef.kind = "Pod" → Q ea.targetRef.key p) →
      ∀ e ∈ (appendEndpointLabelsForAddresses ms seen eps eas epp pods svc ready).2,
        Q e.1 e.2.1 := by
  intro eas
  induction eas with
  | nil => intro ms seen hs _ e he; exact hs e he
  | cons ea rest ih =>
    intro ms seen hs hea e he
    simp only [appendEndpointLabelsForAddresses] at he
    refine ih _ _ ?_ (fun ea' hm => hea ea' (List.mem_cons_of_mem _ hm)) e he
    exact getEndpointLabelsForAddressAndPort_inv Q seen eps ea epp _ svc ready
      hs (fun p hpeq hkind => hea ea (List.mem_cons_self _ _) p hpeq hkind)

theorem subsetLoop_inv (Q : String → Pod → Prop) (eps : Endpoints)
    (pods : Cache Pod) (svc : Option Service) (ss : EndpointSubset) :
    ∀ (pps : List EndpointPort) (ms : List LabelMap) (seen : PodPortsSeen),
      (∀ e ∈ seen, Q e.1 e.2.1) →
      (∀ ea ∈ ss.addresses ++ ss.notReadyAddresses, ∀ p,
        alLookup pods ea.targetRef.key = some p →
        ea.targetRef.kind = "Pod" → Q ea.targetRef.key p) →
      ∀ e ∈ (endpointsSubsetLoop eps pods svc ss pps ms seen).2, Q e.1 e.2.1 := by
  intro pps
  induction pps with
  | nil => intro ms seen hs _ e he; exact hs e he
  | cons epp rest ih =>
    intro ms seen hs hea e he
    simp only [endpointsSubsetLoop] at he
    refine ih _ _ ?_ hea e he
    refine appendAddrs_inv Q eps epp pods svc "false" ss.notReadyAddresses _ _ ?_
      (fun ea hm => hea ea (List.mem_append_right _ hm))
    exact appendAddrs_inv Q eps epp pods svc "true" ss.addresses _ _ hs
      (fun ea hm => hea ea (List.mem_append_left _ hm))

theorem pass1_inv (Q : String → Pod → Prop) (eps : Endpoints)
    (pods : Cache Pod) (svc : Option Service) :
    ∀ (sss : List EndpointSubset) (ms : List LabelMap) (seen : PodPortsSeen),
      (∀ e ∈ seen, Q e.1 e.2.1) →
      (∀ ss ∈ sss, ∀ ea ∈ ss.addresses ++ ss.notReadyAddresses, ∀ p,
        alLookup pods ea.targetRef.key = some p →
        ea.targetRef.kind = "Pod" → Q ea.targetRef.key p) →
      ∀ e ∈ (endpointsPass1 eps pods svc sss ms seen).2, Q e.1 e.2.1 := by
  intro sss
  induction sss with
  | nil => intro ms seen hs _ e he; exact hs e he
  | cons ss rest ih =>
    intro ms seen hs hss e he
    simp only [endpointsPass1] at he
    refine ih _ _ ?_ (fun ss' hm => hss ss' (List.mem_cons_of_mem _ hm)) e he
    exact subsetLoop_inv Q eps pods svc ss ss.ports ms seen hs
      (hss ss (List.mem_cons_self _ _))

/-! ## Claim C1: target counts of `appendTargetLabels` -/

/-- Claim C1, counterexample: an Endpoints references the cached pod
`ns1/p1` through subset port 8080, which matches none of the pod's container
ports (9090); the pod is never recorded in `podPortsSeen`, so pass 2 skips it
entirely and only the single pass-1 target is emitted, while the claim
predicts an additional target for the uncovered port 9090 (total 2). -/
theorem claimC1_counterexample :
    (appendTargetLabels ceC1Eps [] ceC1Pods []).length = 1 ∧
    claimC1PredictedCount ceC1Eps ceC1Pods = 2 ∧
    alLookup ceC1Pods "ns1/p1" = some ceC1Pod := by decide

/-- Claim C1, amended: `appendTargetLabels` emits exactly one target per
(subset-port × address) pair in pass 1, plus — for every pod actually
recorded in `podPortsSeen` (at least one subset port equal to one of its
container ports) — one additional target per container port not among its
recorded ports; and every `podPortsSeen` entry stems from a subset address
whose targetRef of kind `Pod` is present in the pod cache, so a pod not
referenced by any subset yields no pass-2 target. A referenced pod none of
whose container ports matches any subset port is never recorded and yields no
pass-2 targets, contrary to the original claim. -/
theorem claimC1_amended (eps : Endpoints) (ms : List LabelMap)
    (pods : Cache Pod) (svcs : Cache Service) :
    (appendTargetLabels eps ms pods svcs).length =
      ms.length + pass1Count eps + pass2Count eps pods ∧
    ∀ e ∈ seenOf eps pods, ∃ ss ∈ eps.subsets,
      ∃ ea ∈ ss.addresses ++ ss.notReadyAddresses,
        e.1 = ea.targetRef.key ∧ ea.targetRef.kind = "Pod" ∧
        alLookup pods ea.targetRef.key = some e.2.1 := by
  refine ⟨appendTargetLabels_len eps ms pods svcs, ?_⟩
  intro e he
  unfold seenOf at he
  exact pass1_inv
    (fun k p => ∃ ss ∈ eps.subsets, ∃ ea ∈ ss.addresses ++ ss.notReadyAddresses,
      k = ea.targetRef.key ∧ ea.targetRef.kind = "Pod" ∧
      alLookup pods ea.targetRef.key = some p)
    eps pods none eps.subsets [] [] (by simp)
    (fun ss hss ea hea p hlook hkind => ⟨ss, hss, ea, hea, rfl, hkind, hlook⟩)
    e he

/-- Claim C1, witness: the amended statement at a concrete Endpoints whose
pod is recorded on port 80 and has the uncovered container port 9000. -/
theorem claimC1_witness :
    (appendTargetLabels wEps [] wPods []).length =
      ([] : List LabelMap).length + pass1Count wEps + pass2Count wEps wPods ∧
    ∀ e ∈ seenOf wEps wPods, ∃ ss ∈ wEps.subsets,
      ∃ ea ∈ ss.addresses ++ ss.notReadyAddresses,
        e.1 = ea.targetRef.key ∧ ea.targetRef.kind = "Pod" ∧
        alLookup wPods ea.targetRef.key = some e.2.1 :=
  claimC1_amended wEps [] wPods []

/-! ## Claim C9: replay determinism and the pass-2 iteration order -/

theorem endpointsPass2_eq_flatMap (svc : Option Service) :
    ∀ (l : PodPortsSeen) (ms : List LabelMap),
      endpointsPass2 svc l ms = ms ++ l.flatMap (pass2EntryTargets svc) := by
  intro l
  induction l with
  | nil => intro ms; simp [endpointsPass2]
  | cons e rest ih =>
    intro ms
    simp only [endpointsPass2, List.flatMap_cons]
    rw [ih, List.append_assoc]

/-- Claim C9, counterexample: with two pods recorded in `podPortsSeen`, two
runs of the `ADDED` processing that iterate the Go map in different
(both legitimate) orders emit different `Labels` lists — the pass-2 targets
swap — so element-by-element equality of replayed events, "including the
order of the pass-2 targets", does not hold: Go's `range` order over
`podPortsSeen` is unspecified. -/
theorem claimC9_counterexample :
    List.Perm (List.reverse (seenOf ceC9Eps ceC9Pods)) (seenOf ceC9Eps ceC9Pods) ∧
    processEndpointsIter List.reverse "s" ceC9SC ceC9Eps "ADDED" ≠
      processEndpointsIter id "s" ceC9SC ceC9Eps "ADDED" := by
  constructor
  · exact List.reverse_perm _
  · decide

/-- Claim C9, amended: replaying the same `ADDED` event against unchanged
caches yields single events with the same key whose `Labels` agree up to a
permutation of the pass-2 targets, and agree element by element on the pass-1
prefix; full element-by-element equality holds only when both runs iterate
`podPortsSeen` in the same order (the model's canonical `id` order makes the
function deterministic), which Go's `range` does not guarantee. -/
theorem claimC9_amended (setName : String) (sc : SharedKubernetesCache)
    (eps : Endpoints) (iter1 iter2 : PodPortsSeen → PodPortsSeen)
    (h1 : ∀ l, List.Perm (iter1 l) l) (h2 : ∀ l, List.Perm (iter2 l) l) :
    ∃ l1 l2,
      processEndpointsIter iter1 setName sc eps "ADDED" =
        [{ key := buildSyncKey "endpoints" setName eps.key, labels := l1,
           configSectionSet := setName }] ∧
      processEndpointsIter iter2 setName sc eps "ADDED" =
        [{ key := buildSyncKey "endpoints" setName eps.key, labels := l2,
           configSectionSet := setName }] ∧
      List.Perm l1 l2 ∧
      l1.take (pass1Count eps) = l2.take (pass1Count eps) := by
  refine ⟨appendTargetLabelsIter iter1 eps [] sc.pods sc.services,
          appendTargetLabelsIter iter2 eps [] sc.pods sc.services,
          by simp [processEndpointsIter], by simp [processEndpointsIter], ?_, ?_⟩
  · simp only [appendTargetLabelsIter]
    rw [pass1_seen_eq, endpointsPass2_eq_flatMap, endpointsPass2_eq_flatMap]
    apply List.Perm.append_left
    exact ((h1 (seenOf eps sc.pods)).trans
      (h2 (seenOf eps sc.pods)).symm).flatMap_right _
  · simp only [appendTargetLabelsIter]
    rw [pass1_seen_eq, endpointsPass2_eq_flatMap, endpointsPass2_eq_flatMap]
    have hlen : (endpointsPass1 eps sc.pods (alLookup sc.services eps.key)
        eps.subsets [] []).1.length = pass1Count eps := by
      rw [pass1_fst_len]
      simp [pass1Count]
    rw [← hlen, List.take_left, List.take_left]

/-- Claim C9, witness: the amended statement at the two-pod input with both
runs using the canonical iteration order. -/
theorem claimC9_witness :
    ∃ l1 l2,
      processEndpointsIter id "s" ceC9SC ceC9Eps "ADDED" =
        [{ key := buildSyncKey "endpoints" "s" ceC9Eps.key, labels := l1,
           configSectionSet := "s" }] ∧
      processEndpointsIter id "s" ceC9SC ceC9Eps "ADDED" =
        [{ key := buildSyncKey "endpoints" "s" ceC9Eps.key, labels := l2,
           configSectionSet := "s" }] ∧
      List.Perm l1 l2 ∧
      l1.take (pass1Count ceC9Eps) = l2.take (pass1Count ceC9Eps) :=
  claimC9_amended "s" ceC9SC ceC9Eps id id
    (fun l => List.Perm.refl l) (fun l => List.Perm.refl l)

/-! ## Claim C8: missing Service entry — no service-level label keys -/

theorem notPfx_append_long (p q t : List Char) (hlen : p.length ≤ q.length)
    (hp : ¬ List.IsPrefix p q) : ¬ List.IsPrefix p (q ++ t) :=
  fun h => hp (List.prefix_of_prefix_length_le h (List.prefix_append q t) hlen)

theorem notPfx_append_short (p q t : List Char) (hlen : q.length ≤ p.length)
    (hq : ¬ List.IsPrefix q p) : ¬ List.IsPrefix p (q ++ t) :=
  fun h => hq (List.prefix_of_prefix_length_le (List.prefix_append q t) h hlen)

theorem noSvcPfx_eps_dyn (t : String) :
    noSvcPfx ("__meta_kubernetes_endpoints" ++ t) := by
  unfold noSvcPfx
  rw [String.data_append]
  exact notPfx_append_long _ _ _ (by decide) (by decide)

theorem noSvcPfx_pod_dyn (t : String) :
    noSvcPfx ("__meta_kubernetes_pod" ++ t) := by
  unfold noSvcPfx
  rw [String.data_append]
  exact notPfx_append_short _ _ _ (by decide) (by decide)

theorem metaLabelPairs_key (pfx : String) (om : ObjectMeta) :
    ∀ kv ∈ metaLabelPairs pfx om, ∃ t, kv.1 = pfx ++ t := by
  intro kv h
  unfold metaLabelPairs at h
  rw [List.mem_append] at h
  rcases h with h | h <;> rw [List.mem_flatMap] at h <;> obtain ⟨x, -, hkv⟩ := h <;>
    simp only [List.mem_cons, List.mem_singleton, List.not_mem_nil, or_false] at hkv <;>
    rcases hkv with hkv | hkv <;> subst hkv <;>
    exact ⟨_, strAppendAssoc _ _ _⟩

theorem podCommonPairs_good (p : Pod) :
    ∀ kv ∈ podCommonPairs p, noSvcPfx kv.1 := by
  intro kv h
  unfold podCommonPairs at h
  rw [List.mem_append] at h
  rcases h with h | h
  · simp only [List.mem_cons, List.mem_singleton, List.not_mem_nil, or_false] at h
    rcases h with h | h | h | h | h | h | h <;> subst h <;> dsimp only <;> decide
  · obtain ⟨t, ht⟩ := metaLabelPairs_key _ _ kv h
    rw [ht]
    exact noSvcPfx_pod_dyn t

theorem containerPairs_good (c : PodContainer) (cp : ContainerPort) :
    ∀ kv ∈ containerPairs c cp, noSvcPfx kv.1 := by
  intro kv h
  unfold containerPairs at h
  simp only [List.mem_cons, List.mem_singleton, List.not_mem_nil, or_false] at h
  rcases h with h | h | h | h | h <;> subst h <;> dsimp only <;> decide

theorem skeletonPairs_good (om : ObjectMeta) (ea : EndpointAddress)
    (epp : EndpointPort) (ready : String) :
    ∀ kv ∈ endpointSkeletonPairs om ea epp ready, noSvcPfx kv.1 := by
  intro kv h
  unfold endpointSkeletonPairs at h
  rw [List.mem_append, List.mem_append, List.mem_append] at h
  rcases h with ((h | h) | h) | h
  · simp only [List.mem_cons, List.mem_singleton, List.not_mem_nil, or_false] at h
    rcases h with h | h | h | h | h | h <;> subst h <;> dsimp only <;> decide
  · by_cases hc : ea.targetRef.kind ≠ ""
    · rw [if_pos hc] at h
      simp only [List.mem_cons, List.mem_singleton, List.not_mem_nil, or_false] at h
      rcases h with h | h <;> subst h <;> dsimp only <;> decide
    · rw [if_neg hc] at h
      simp at h
  · by_cases hc : ea.nodeName ≠ ""
    · rw [if_pos hc] at h
      simp only [List.mem_singleton] at h
      subst h
      dsimp only
      decide
    · rw [if_neg hc] at h
      simp at h
  · by_cases hc : ea.hostname ≠ ""
    · rw [if_pos hc] at h
      simp only [List.mem_singleton] at h
      subst h
      dsimp only
      decide
    · rw [if_neg hc] at h
      simp at h

theorem applyPairs_keepGood (m : LabelMap) (ps : LabelPairs)
    (hm : ∀ kv ∈ m, noSvcPfx kv.1) (hp : ∀ kv ∈ ps, noSvcPfx kv.1) :
    ∀ kv ∈ applyPairs m ps, noSvcPfx kv.1 := by
  intro kv h
  rcases applyPairs_mem ps m kv h with h | ⟨kv', h', heq⟩
  · exact hm kv h
  · rw [heq]
    exact hp kv' h'

theorem metaEpsPairs_good (om : ObjectMeta) :
    ∀ kv ∈ metaLabelPairs "__meta_kubernetes_endpoints" om, noSvcPfx kv.1 := by
  intro kv h
  obtain ⟨t, ht⟩ := metaLabelPairs_key _ _ kv h
  rw [ht]
  exact noSvcPfx_eps_dyn t

theorem endpointBaseLabels_good (eps : Endpoints) (ea : EndpointAddress)
    (epp : EndpointPort) (ready : String) :
    ∀ kv ∈ endpointBaseLabels eps ea epp none ready, noSvcPfx kv.1 := by
  have hrw : endpointBaseLabels eps ea epp none ready =
      applyPairs (applyPairs [] (endpointSkeletonPairs eps.metadata ea epp ready))
        (metaLabelPairs "__meta_kubernetes_endpoints" eps.metadata) := rfl
  rw [hrw]
  exact applyPairs_keepGood _ _
    (applyPairs_keepGood _ _ (by simp) (skeletonPairs_good _ _ _ _))
    (metaEpsPairs_good _)

theorem podContainersScan_fst_good (k : String) (p : Pod) (epp : EndpointPort) :
    ∀ (cs : List PodContainer) (m : LabelMap) (seen : PodPortsSeen),
      (∀ kv ∈ m, noSvcPfx kv.1) →
      ∀ kv ∈ (podContainersScan cs k p epp m seen).1, noSvcPfx kv.1 := by
  intro cs
  induction cs with
  | nil => intro m seen hm kv h; exact hm kv h
  | cons c rest ih =>
    intro m seen hm kv h
    cases hf : c.ports.find? (fun cp => cp.containerPort == epp.port) with
    | some cp =>
      simp only [podContainersScan, hf] at h
      exact ih _ _ (applyPairs_keepGood _ _ hm (containerPairs_good c cp)) kv h
    | none =>
      simp only [podContainersScan, hf] at h
      exact ih _ _ hm kv h

theorem getEndpointLabelsForAddressAndPort_fst_good (seen : PodPortsSeen)
    (eps : Endpoints) (ea : EndpointAddress) (epp : EndpointPort)
    (pOpt : Option Pod) (ready : String) :
    ∀ kv ∈ (getEndpointLabelsForAddressAndPort seen eps ea epp pOpt none ready).1,
      noSvcPfx kv.1 := by
  cases pOpt with
  | none =>
    intro kv h
    simp only [getEndpointLabelsForAddressAndPort] at h
    exact endpointBaseLabels_good eps ea epp ready kv h
  | some p =>
    by_cases hk : ea.targetRef.kind ≠ "Pod"
    · intro kv h
      simp only [getEndpointLabelsForAddressAndPort, if_pos hk] at h
      exact endpointBaseLabels_good eps ea epp ready kv h
    · intro kv h
      simp only [getEndpointLabelsForAddressAndPort, if_neg hk] at h
      refine podContainersScan_fst_good _ _ _ _ _ _ ?_ kv h
      exact applyPairs_keepGood _ _ (endpointBaseLabels_good eps ea epp ready)
        (podCommonPairs_good p)

theorem appendAddrs_maps_good (eps : Endpoints) (epp : EndpointPort)
    (pods : Cache Pod) (ready : String) :
    ∀ (eas : List EndpointAddress) (ms : List LabelMap) (seen : PodPortsSeen),
      (∀ m ∈ ms, ∀ kv ∈ m, noSvcPfx kv.1) →
      ∀ m ∈ (appendEndpointLabelsForAddresses ms seen eps eas epp pods none ready).1,
        ∀ kv ∈ m, noSvcPfx kv.1 := by
  intro eas
  induction eas with
  | nil => intro ms seen hms m hm; exact hms m hm
  | cons ea rest ih =>
    intro ms seen hms m hm
    simp only [appendEndpointLabelsForAddresses] at hm
    refine ih _ _ ?_ m hm
    intro m' hm'
    rw [List.mem_append] at hm'
    rcases hm' with hm' | hm'
    · exact hms m' hm'
    · rw [List.mem_singleton] at hm'
      subst hm'
      exact getEndpointLabelsForAddressAndPort_fst_good seen eps ea epp _ ready

theorem subsetLoop_maps_good (eps : Endpoints) (pods : Cache Pod)
    (ss : EndpointSubset) :
    ∀ (pps : List EndpointPort) (ms : List LabelMap) (seen : PodPortsSeen),
      (∀ m ∈ ms, ∀ kv ∈ m, noSvcPfx kv.1) →
      ∀ m ∈ (endpointsSubsetLoop eps pods none ss pps ms seen).1,
        ∀ kv ∈ m, noSvcPfx kv.1 := by
  intro pps
  induction pps with
  | nil => intro ms seen hms m hm; exact hms m hm
  | cons epp rest ih =>
    intro ms seen hms m hm
    simp only [endpointsSubsetLoop] at hm
    refine ih _ _ ?_ m hm
    exact appendAddrs_maps_good eps epp pods "false" ss.notReadyAddresses _ _
      (appendAddrs_maps_good eps epp pods "true" ss.addresses _ _ hms)

theorem pass1_maps_good (eps : Endpoints) (pods : Cache Pod) :
    ∀ (sss : List EndpointSubset) (ms : List LabelMap) (seen : PodPortsSeen),
      (∀ m ∈ ms, ∀ kv ∈ m, noSvcPfx kv.1) →
      ∀ m ∈ (endpointsPass1 eps pods none sss ms seen).1,
        ∀ kv ∈ m, noSvcPfx kv.1 := by
  intro sss
  induction sss with
  | nil => intro ms seen hms m hm; exact hms m hm
  | cons ss rest ih =>
    intro ms seen hms m hm
    simp only [endpointsPass1] at hm
    exact ih _ _ (subsetLoop_maps_good eps pods ss ss.ports ms seen hms) m hm

theorem pass2MapForPort_good (p : Pod) (c : PodContainer) (cp : ContainerPort) :
    ∀ kv ∈ pass2MapForPort none p c cp, noSvcPfx kv.1 := by
  have hrw : pass2MapForPort none p c cp =
      applyPairs (applyPairs (applyPairs []
        [("__address__", joinHostPort p.podIP cp.containerPort)])
        (podCommonPairs p)) (containerPairs c cp) := rfl
  rw [hrw]
  refine applyPairs_keepGood _ _ ?_ (containerPairs_good c cp)
  refine applyPairs_keepGood _ _ ?_ (podCommonPairs_good p)
  refine applyPairs_keepGood _ _ (by simp) ?_
  intro kv h
  rw [List.mem_singleton] at h
  subst h
  dsimp only
  decide

theorem pass2EntryTargets_good (e : String × Pod × List Int) :
    ∀ m ∈ pass2EntryTargets none e, ∀ kv ∈ m, noSvcPfx kv.1 := by
  intro m hm
  unfold pass2EntryTargets at hm
  rw [List.mem_flatMap] at hm
  obtain ⟨c, -, hm⟩ := hm
  unfold pass2ContainerTargets at hm
  rw [List.mem_filterMap] at hm
  obtain ⟨cp, -, hopt⟩ := hm
  cases hps : portSeen cp.containerPort e.2.2 <;> rw [hps] at hopt
  · simp only [if_neg Bool.false_ne_true, Option.some.injEq] at hopt
    subst hopt
    exact pass2MapForPort_good e.2.1 c cp
  · simp at hopt

theorem endpointsPass2_maps_good :
    ∀ (l : PodPortsSeen) (ms : List LabelMap),
      (∀ m ∈ ms, ∀ kv ∈ m, noSvcPfx kv.1) →
      ∀ m ∈ endpointsPass2 none l ms, ∀ kv ∈ m, noSvcPfx kv.1 := by
  intro l
  induction l with
  | nil => intro ms hms m hm; exact hms m hm
  | cons e rest ih =>
    intro ms hms m hm
    simp only [endpointsPass2] at hm
    refine ih _ ?_ m hm
    intro m' hm'
    rw [List.mem_append] at hm'
    rcases hm' with hm' | hm'
    · exact hms m' hm'
    · exact pass2EntryTargets_good e m' hm'

/-- Claim C8: when the Service cache has no entry for the Endpoints key, the
targets are still emitted — the emitted count is the same function of the
Endpoints object and the pod cache as always (first conjunct, the service
overlay never affects how many targets exist) — and no emitted label map
carries any key in the `__meta_kubernetes_service_` name space (second
conjunct: the service overlay is skipped in pass 1 and pass 2 alike). -/
theorem claimC8_main (eps : Endpoints) (ms : List LabelMap)
    (pods : Cache Pod) (svcs : Cache Service)
    (h : alLookup svcs eps.key = none) :
    (appendTargetLabels eps ms pods svcs).length =
      ms.length + pass1Count eps + pass2Count eps pods ∧
    ∀ m ∈ appendTargetLabels eps [] pods svcs, ∀ kv ∈ m, noSvcPfx kv.1 := by
  refine ⟨appendTargetLabels_len eps ms pods svcs, ?_⟩
  intro m hm
  simp only [appendTargetLabels, appendTargetLabelsIter, h, id_eq] at hm
  exact endpointsPass2_maps_good _ _
    (pass1_maps_good eps pods eps.subsets [] [] (by simp)) m hm

/-- Claim C8, witness: the theorem at a concrete Endpoints joined against an
empty Service cache. -/
theorem claimC8_witness :
    (appendTargetLabels wEps [] wPods []).length =
      ([] : List LabelMap).length + pass1Count wEps + pass2Count wEps wPods ∧
    ∀ m ∈ appendTargetLabels wEps [] wPods [], ∀ kv ∈ m, noSvcPfx kv.1 :=
  claimC8_main wEps [] wPods [] rfl
